import Mathlib

/-!
Shallow embedding of the DailyNews ingestion pipeline (Go) and proofs about it.

Conventions used throughout:
* Go `string` is Lean `String`; Go `len(s)` (UTF-8 byte length) is `String.utf8ByteSize`.
* Go `time.Time` is modelled as `Int` (seconds since an arbitrary epoch); durations
  are in seconds, so `maxDays` days is `maxDays * 86400` seconds.  `time.Since(t)`
  with current time `now` is `now - t`.
* Go maps used as sets (`map[string]struct\x7b\x7d`) are `List String` with membership;
  Go maps used as counters are association lists.
* Effectful collaborators (HTTP, database, filesystem, wall clock) are oracles
  collected in an environment structure; the repository's own logic is translated
  statement by statement from the source.
-/

namespace DailyNews

/-! ## Go string primitives (models of the `strings` stdlib calls the code uses) -/

/-- Whitespace per Go's `unicode.IsSpace` restricted to Latin-1
(`\t \n \v \f \r ' '` U+0085 U+00A0), the range relevant to this code base. -/
def goIsSpace (c : Char) : Bool :=
  c = ' ' || c = '\t' || c = '\n' || c = Char.ofNat 0x0B || c = Char.ofNat 0x0C ||
  c = '\r' || c = Char.ofNat 0x85 || c = Char.ofNat 0xA0

/-- Model of `strings.TrimSpace`. -/
def goTrimSpace (s : String) : String :=
  String.mk (((s.toList.dropWhile goIsSpace).reverse.dropWhile goIsSpace).reverse)

/-- Fuel-driven worker for `goReplaceAll`; the fuel (the input's length)
bounds the number of scan steps so the recursion is structural. -/
def replaceAllFuel (pat rep : List Char) : Nat → List Char → List Char
  | 0, l => l
  | _ + 1, [] => []
  | fuel + 1, c :: t =>
    if pat.isPrefixOf (c :: t) then
      rep ++ replaceAllFuel pat rep fuel (t.drop (pat.length - 1))
    else c :: replaceAllFuel pat rep fuel t

/-- Model of `strings.ReplaceAll` for a non-empty pattern: replace successive
non-overlapping leftmost matches, continuing after each replacement. -/
def goReplaceAll (s pat rep : String) : String :=
  String.mk (replaceAllFuel pat.toList rep.toList s.toList.length s.toList)

/-- Splitting on a single-character separator, modelling `strings.Split` for
the one-character separators this code uses (`|`). -/
def goSplitChar (sep : Char) : List Char → List (List Char)
  | [] => [[]]
  | c :: t =>
    if c = sep then [] :: goSplitChar sep t
    else
      match goSplitChar sep t with
      | w :: rest => (c :: w) :: rest
      | [] => [[c]]

/-- Model of `strings.Split(s, sep)` for a one-character separator. -/
def goSplit (sep : Char) (s : String) : List String :=
  (goSplitChar sep s.toList).map String.mk

/-- Helper for `goContains`: does `needle` occur inside `hay`? -/
def goContainsList (needle : List Char) : List Char → Bool
  | [] => needle.isPrefixOf ([] : List Char)
  | c :: t => needle.isPrefixOf (c :: t) || goContainsList needle t

/-- Model of `strings.Contains`. -/
def goContains (s sub : String) : Bool :=
  goContainsList sub.toList s.toList

/-- Model of `strings.HasPrefix`. -/
def goHasPrefix (s pre : String) : Bool :=
  pre.toList.isPrefixOf s.toList

/-- Model of `strings.ToLower` on one character, restricted to ASCII and the
Latin-1 uppercase range (all the code's blacklist matching needs). -/
def goToLowerChar (c : Char) : Char :=
  if 'A' ≤ c && c ≤ 'Z' then Char.ofNat (c.toNat + 32)
  else if 0xC0 ≤ c.toNat && c.toNat ≤ 0xDE && c.toNat != 0xD7 then Char.ofNat (c.toNat + 32)
  else c

/-- Model of `strings.ToLower` (Latin-1 scope, see `goToLowerChar`). -/
def goToLower (s : String) : String :=
  String.mk (s.toList.map goToLowerChar)

/-! ## `cleanText` and `isBlacklisted` (src/internal/usecase/fetch_news.go lines 17-45) -/

/-- Helper for the tag-stripping regex `<[^>]*>`: drop characters up to and
including the first `>`; `none` when there is no `>`. -/
def dropTag : List Char → Option (List Char)
  | [] => none
  | c :: cs => if c = '>' then some cs else dropTag cs

/-- Fuel-driven worker for `stripTags`; the fuel (the input's length) bounds
the number of scan steps so the recursion is structural. -/
def stripTagsFuel : Nat → List Char → List Char
  | 0, l => l
  | _ + 1, [] => []
  | fuel + 1, c :: cs =>
    if c = '<' then
      match dropTag cs with
      | some rest => stripTagsFuel fuel rest
      | none => c :: cs
    else c :: stripTagsFuel fuel cs

/-- Model of `regexp.MustCompile("<[^>]*>").ReplaceAllString(text, "")`:
each `<` with a later `>` is removed together with everything up to that `>`;
a `<` with no closing `>` is kept verbatim (the regex does not match there). -/
def stripTags (cs : List Char) : List Char :=
  stripTagsFuel cs.length cs

/-- Model of `strings.Fields`: maximal runs of non-whitespace characters. -/
def goFields (s : String) : List String :=
  ((s.toList.splitOnP goIsSpace).filter (fun w => !w.isEmpty)).map String.mk

/-- `cleanText` (fetch_news.go lines 19-35): strip HTML tags, decode the listed
HTML entities in the listed order, collapse whitespace runs, trim. -/
def cleanText (text : String) : String :=
  let t := String.mk (stripTags text.toList)
  let t := goReplaceAll t "&nbsp;" " "
  let t := goReplaceAll t "&#160;" " "
  let t := goReplaceAll t "&amp;" "&"
  let t := goReplaceAll t "&quot;" "\""
  let t := goReplaceAll t "&#39;" "'"
  let t := goReplaceAll t "&lt;" "<"
  let t := goReplaceAll t "&gt;" ">"
  let t := goReplaceAll t "&apos;" "'"
  let t := String.intercalate " " (goFields t)
  goTrimSpace t

/-- The hard-coded blacklist (fetch_news.go line 17). -/
def blacklist : List String := ["oróscopo", "horóscopo"]

/-- `isBlacklisted` (fetch_news.go lines 37-45). -/
def isBlacklisted (title : String) : Bool :=
  let t := goToLower title
  blacklist.any (fun word => goContains t word)

/-! ## Small generic helpers -/

/-- First-match association-list lookup, modelling Go map indexing
(`m[k]` with the `, ok` form); keys are unique in the maps we build. -/
def lookupStr {α : Type} : List (String × α) → String → Option α
  | [], _ => none
  | (k2, v) :: rest, k => if k2 = k then some v else lookupStr rest k

/-- Model of `strings.TrimPrefix`. -/
def goTrimPrefix (s pre : String) : String :=
  if pre.toList.isPrefixOf s.toList then String.mk (s.toList.drop pre.toList.length) else s

/-- Model of `strings.TrimSuffix`. -/
def goTrimSuffix (s suf : String) : String :=
  if suf.toList.isSuffixOf s.toList then
    String.mk (s.toList.take (s.toList.length - suf.toList.length))
  else s

/-- Model of `strings.Index` (at rune granularity): index of the first
occurrence of `needle`, `none` when absent. -/
def goIndexList (needle : List Char) : List Char → Option Nat
  | [] => if needle.isEmpty then some 0 else none
  | c :: t => if needle.isPrefixOf (c :: t) then some 0 else (goIndexList needle t).map (· + 1)

/-- Injective stand-in for Go's `time.Time.Format(time.RFC3339)`: a canonical,
never-empty timestamp string for the instant `t`. -/
def timeFormatRFC3339 (t : Int) : String :=
  "rfc3339:" ++ toString t

/-- Stand-in for Go's `time.Parse(time.RFC3339, s)`: succeeds exactly on the
canonical strings produced by `timeFormatRFC3339` (and is its inverse there);
fails on everything else, as the strict parser fails on non-RFC3339 input. -/
def timeParseRFC3339 (s : String) : Option Int :=
  if "rfc3339:".toList.isPrefixOf s.toList then
    String.toInt? (String.mk (s.toList.drop 8))
  else none

/-! ## gofeed item model and the field extractor
(src/internal/infrastructure/rss_fetcher.go) -/

/-- A feed enclosure (`gofeed.Enclosure`); `Typ` is the Go field `Type`,
renamed because `Type` is reserved in Lean. -/
structure Enclosure where
  URL : String := ""
  Typ : String := ""

/-- One entry of a gofeed extension (`ext.Extension`), reduced to its
attribute map, the only part this code reads. -/
structure ExtensionEntry where
  Attrs : List (String × String) := []

/-- The slice of `gofeed.Item` this code reads. `Extensions` is
extension-name → key → entries, as in gofeed. Times are `Option Int`
(`*time.Time` pointers, `none` = nil). -/
structure Item where
  Title : String := ""
  Link : String := ""
  Description : String := ""
  Enclosures : List Enclosure := []
  Extensions : List (String × List (String × List ExtensionEntry)) := []
  PublishedParsed : Option Int := none
  UpdatedParsed : Option Int := none

/-- `getMediaThumbnail` (rss_fetcher.go lines 217-226). -/
def getMediaThumbnail (item : Item) : String :=
  match lookupStr item.Extensions "media" with
  | none => ""
  | some ext =>
    match lookupStr ext "thumbnail" with
    | some (e :: _) =>
      match lookupStr e.Attrs "url" with
      | some url => url
      | none => ""
    | _ => ""

/-- `getMediaContent` (rss_fetcher.go lines 229-238). -/
def getMediaContent (item : Item) : String :=
  match lookupStr item.Extensions "media" with
  | none => ""
  | some ext =>
    match lookupStr ext "content" with
    | some (e :: _) =>
      match lookupStr e.Attrs "url" with
      | some url => url
      | none => ""
    | _ => ""

/-- `extractImgFromDescription` (rss_fetcher.go lines 241-263), the minimal
linear `<img src>` scan. Result `none` marks the one place the Go code can
panic: indexing `imgTag[srcIdx+4]` when `src=` ends the truncated tag;
`some s` is a normal return of `s`. -/
def extractImgFromDescription (desc : String) : Option String :=
  let dc := desc.toList
  match goIndexList "<img ".toList dc with
  | none => some ""
  | some start =>
    let imgTag := dc.drop start
    match goIndexList ['>'] imgTag with
    | none => some ""
    | some e =>
      let imgTag2 := imgTag.take e
      match goIndexList "src=".toList imgTag2 with
      | none => some ""
      | some sIdx =>
        if hlt : sIdx + 4 < imgTag2.length then
          let quote := imgTag2.get ⟨sIdx + 4, hlt⟩
          let rest := imgTag2.drop (sIdx + 5)
          match goIndexList [quote] rest with
          | none => some ""
          | some q => some (String.mk (rest.take q))
        else
          none

/-- `cleanCDATA` (rss_fetcher.go lines 266-271). -/
def cleanCDATA (s : String) : String :=
  let s1 := goTrimSpace s
  let s2 := goTrimPrefix s1 "<![CDATA["
  let s3 := goTrimSuffix s2 "]]>"
  goTrimSpace s3

/-- The loop body of `extractFieldFromItem` (rss_fetcher.go lines 175-214)
over the already-split list of `|`-alternatives. `none` marks a panic
propagated from `extractImgFromDescription`; `some s` a normal return. -/
def extractFieldList (item : Item) : List String → Option String
  | [] => some ""
  | f0 :: rest =>
    let f := goTrimSpace f0
    if f = "title" then
      if item.Title ≠ "" then some item.Title else extractFieldList item rest
    else if f = "media:content" then
      let r := getMediaContent item
      if r ≠ "" then some r else extractFieldList item rest
    else if f = "media:thumbnail" then
      let r := getMediaThumbnail item
      if r ≠ "" then some r else extractFieldList item rest
    else if f = "enclosure" then
      match item.Enclosures with
      | e :: _ =>
        if goHasPrefix e.Typ "image/" then some e.URL else extractFieldList item rest
      | [] => extractFieldList item rest
    else if f = "description_img" then
      match extractImgFromDescription item.Description with
      | none => none
      | some r => if r ≠ "" then some r else extractFieldList item rest
    else if f = "link" then
      if item.Link ≠ "" then some item.Link else extractFieldList item rest
    else if f = "pubDate" then
      match item.PublishedParsed with
      | some t => some (timeFormatRFC3339 t)
      | none =>
        match item.UpdatedParsed with
        | some t => some (timeFormatRFC3339 t)
        | none => extractFieldList item rest
    else extractFieldList item rest

/-- `extractFieldFromItem` (rss_fetcher.go lines 175-214): split the field
specification on `|` and try the alternatives in order. -/
def extractFieldFromItem (item : Item) (field : String) : Option String :=
  extractFieldList item (goSplit '|' field)

/-! ## Configuration (src/pkg/config/config.go) -/

/-- A Go `interface\x7b\x7d` value inside a nested config map: an `int`, an
integral `float64` (what YAML numbers deserialize to; carried as the integer
Go's `int(f)` conversion yields), or anything else. -/
inductive GoVal
  | vint (n : Int)
  | vfloat (n : Int)
  | vother
deriving DecidableEq

/-- A top-level value of a nested config map: either castable to
`map[string]interface\x7b\x7d` or not. -/
inductive OuterVal
  | omap (m : List (String × GoVal))
  | oval (v : GoVal)
deriving DecidableEq

/-- A nested config map (`map[string]interface\x7b\x7d`, possibly nil). -/
abbrev NestedMap := Option (List (String × OuterVal))

/-- `FiltersConfig` (config.go lines 58-65); the two float aspect fields live
with the image downloader model instead. -/
structure FiltersConfig where
  MinTitle : Int := 0
  MaxTitle : Int := 0
  MaxDays : Int := 0
  MaxDaysForNewsWithFewSources : Int := 0
deriving DecidableEq

/-- The slice of `Config` the pipeline reads (config.go lines 11-20). -/
structure Config where
  NewsCount : NestedMap := none
  MaxPerSource : NestedMap := none
  MaxDays : NestedMap := none
  Filters : FiltersConfig := {}

/-- `getIntValueFromNestedMap` (config.go lines 119-150): the
`lang.category → lang.default → default → fallback` resolution, where a hit
only counts when the stored value is an `int`. -/
def getIntValueFromNestedMap (nestedMap : NestedMap) (lang category : String)
    (fallback : Int) : Int :=
  match nestedMap with
  | none => fallback
  | some m =>
    let fromLang : Option Int :=
      match lookupStr m lang with
      | some (OuterVal.omap langMap) =>
        match lookupStr langMap category with
        | some (GoVal.vint n) => some n
        | _ =>
          match lookupStr langMap "default" with
          | some (GoVal.vint n) => some n
          | _ => none
      | _ => none
    match fromLang with
    | some n => n
    | none =>
      match lookupStr m "default" with
      | some (OuterVal.oval (GoVal.vint n)) => n
      | _ => fallback

/-- `Config.GetNewsCount` (config.go lines 103-105). -/
def Config.GetNewsCount (c : Config) (lang category : String) : Int :=
  getIntValueFromNestedMap c.NewsCount lang category 10

/-- `Config.GetMaxPerSource` (config.go lines 108-110). -/
def Config.GetMaxPerSource (c : Config) (lang category : String) : Int :=
  getIntValueFromNestedMap c.MaxPerSource lang category 7

/-- `Config.GetMaxDays` (config.go lines 113-115). -/
def Config.GetMaxDays (c : Config) (lang category : String) : Int :=
  getIntValueFromNestedMap c.MaxDays lang category 5

/-- `FetchNewsUseCase.getNewsCount` (fetch_news.go lines 517-551): like the
config helper but also accepting `float64` values, with fallback 10. -/
def getNewsCountUC (c : Config) (lang cat : String) : Int :=
  match c.NewsCount with
  | none => 10
  | some m =>
    let fromLang : Option Int :=
      match lookupStr m lang with
      | some (OuterVal.omap langMap) =>
        match lookupStr langMap cat with
        | some (GoVal.vint n) => some n
        | some (GoVal.vfloat n) => some n
        | _ =>
          match lookupStr langMap "default" with
          | some (GoVal.vint n) => some n
          | some (GoVal.vfloat n) => some n
          | _ => none
      | _ => none
    match fromLang with
    | some n => n
    | none =>
      match lookupStr m "default" with
      | some (OuterVal.oval (GoVal.vint n)) => n
      | some (OuterVal.oval (GoVal.vfloat n)) => n
      | _ => 10

/-! ## Domain types (src/internal/domain/models.go, fields this code reads) -/

/-- `domain.NewsItem`: both the feed candidate produced by the fetcher and the
persisted row (the embedded `Source` struct and gorm bookkeeping are omitted;
`SourceID` keeps the link). -/
structure NewsItem where
  Title : String := ""
  Link : String := ""
  Image : String := ""
  PubDate : Int := 0
  LangCode : String := ""
  CategoryCode : String := ""
  SourceID : Nat := 0
deriving DecidableEq

/-- `domain.NewsSource`: `LangCode` stands for `src.Lang.Code` and `NewsCode`
for `src.News.Code` (the preloaded relations' code columns). -/
structure NewsSource where
  ID : Nat := 0
  SourceName : String := ""
  RSSURL : String := ""
  Filter : Option String := none
  TitleField : Option String := none
  ImageField : Option String := none
  LinkField : Option String := none
  CampoFecha : Option String := none
  LangCode : String := ""
  NewsCode : String := ""
deriving DecidableEq

/-- `getString` (fetch_news.go lines 606-611). -/
def getString : Option String → String
  | some s => s
  | none => ""

/-! ## Extraction patterns and the fetcher's per-item resolution
(rss_fetcher.go lines 37-52 and 77-168) -/

/-- One row of the `extractionPatterns` table. -/
structure PatternSpec where
  TitleField : String := ""
  ImageField : String := ""
  LinkField : String := ""
  DateField : String := ""

/-- `extractionPatterns` (rss_fetcher.go lines 37-52). -/
def extractionPatterns : List (String × PatternSpec) :=
  [("patron1", ⟨"title", "media:content|media:thumbnail", "link", "pubDate"⟩),
   ("patron2", ⟨"title", "enclosure|media:content", "link", "pubDate"⟩),
   ("patron3", ⟨"title", "description_img", "link", "pubDate"⟩),
   ("patron1_no_image", ⟨"title", "", "link", "pubDate"⟩),
   ("patron2_no_image", ⟨"title", "", "link", "pubDate"⟩),
   ("patron3_no_image", ⟨"title", "", "link", "pubDate"⟩)]

/-- Go map read `extractionPatterns[filter]`: the zero-value row (all fields
empty) when the key is absent. -/
def getPattern (filter : String) : PatternSpec :=
  (lookupStr extractionPatterns filter).getD ⟨"", "", "", ""⟩

/-- Date resolution of `rssFetcher.Fetch` (rss_fetcher.go lines 128-154),
given the current time `now`. `none` marks a panic propagated from the field
extractor; `some t` is the resolved publication time. -/
def fetchResolveDate (now : Int) (filter dateField : String) (item : Item) : Option Int :=
  if dateField ≠ "" then
    match extractFieldFromItem item dateField with
    | none => none
    | some dateStr =>
      match timeParseRFC3339 dateStr with
      | some t => some t
      | none => some now
  else
    match extractFieldFromItem item (getPattern filter).DateField with
    | none => none
    | some dateStr =>
      match timeParseRFC3339 dateStr with
      | some t => some t
      | none =>
        match item.PublishedParsed with
        | some t => some t
        | none =>
          match item.UpdatedParsed with
          | some t => some t
          | none => some now

/-- Outcome of the fetcher's per-entry processing. -/
inductive FetchStep
  | panicked
  | dropped
  | candidate (n : NewsItem)
deriving DecidableEq

/-- The per-entry body of `rssFetcher.Fetch` (rss_fetcher.go lines 77-168):
resolve title (drop when empty), image (skipped for `no_image` filters),
link (drop when empty) and date, then build the candidate with the
CDATA-cleaned title. -/
def fetchProcessItem (now : Int) (filter titleField imageField linkField dateField : String)
    (item : Item) : FetchStep :=
  let titleR :=
    if titleField ≠ "" then extractFieldFromItem item titleField
    else extractFieldFromItem item (getPattern filter).TitleField
  match titleR with
  | none => FetchStep.panicked
  | some title =>
    if title = "" then FetchStep.dropped
    else
      let imageR :=
        if imageField ≠ "" then extractFieldFromItem item imageField
        else if !goContains filter "no_image" then
          extractFieldFromItem item (getPattern filter).ImageField
        else some ""
      match imageR with
      | none => FetchStep.panicked
      | some imageURL =>
        let linkR :=
          if linkField ≠ "" then extractFieldFromItem item linkField
          else extractFieldFromItem item (getPattern filter).LinkField
        match linkR with
        | none => FetchStep.panicked
        | some linkURL =>
          if linkURL = "" then FetchStep.dropped
          else
            match fetchResolveDate now filter dateField item with
            | none => FetchStep.panicked
            | some pubDate =>
              FetchStep.candidate
                { Title := cleanCDATA title, Link := linkURL,
                  Image := imageURL, PubDate := pubDate }

/-! ## Image qualifier (src/unnamed/part_000, package infrastructure) -/

/-- The Go stdlib builtin MIME table (`mime/type.go`), inverted to
type → extensions as `mime.ExtensionsByType` reports it (OS-specific
additions omitted); restricted to the rows that matter here plus a few
non-image rows. -/
def builtinMimeExtensions : List (String × List String) :=
  [("image/avif", [".avif"]),
   ("image/gif", [".gif"]),
   ("image/jpeg", [".jpe", ".jpeg", ".jpg"]),
   ("image/png", [".png"]),
   ("image/svg+xml", [".svg"]),
   ("image/webp", [".webp"]),
   ("text/html", [".htm", ".html"]),
   ("application/pdf", [".pdf"]),
   ("text/plain", [".txt"])]

/-- Characters of a string up to (excluding) the first `;`. -/
def takeBeforeSemicolon (s : String) : String :=
  String.mk (s.toList.takeWhile (fun c => c ≠ ';'))

/-- Model of `mime.ExtensionsByType`: normalize the media type (drop
parameters, trim, lowercase — what `mime.ParseMediaType` does) and look it up
in the builtin table. `none` models a `ParseMediaType` error (no `/` in the
type); `some []` an unknown but well-formed type. -/
def mimeExtensionsByType (typ : String) : Option (List String) :=
  let base := goToLower (goTrimSpace (takeBeforeSemicolon typ))
  if goContains base "/" then some ((lookupStr builtinMimeExtensions base).getD [])
  else none

/-- `isValidImageType` (part_000 lines 169-192). -/
def isValidImageType (mimeType : String) : Bool :=
  match mimeExtensionsByType mimeType with
  | none => false
  | some ext =>
    if ext.isEmpty then false
    else
      let supported := [".jpg", ".jpeg", ".png", ".webp", ".gif"]
      ext.any (fun e => supported.contains (goToLower e))

/-- What the image HTTP GET plus body decode yielded: a transport error, or a
response with status, `Content-Type` header and the result of `image.Decode`
on the body (dimensions, or a decode error). -/
inductive ImageFetchOutcome
  | netError (msg : String)
  | response (status : Nat) (contentType : String) (decoded : Except String (Nat × Nat))

/-- The aspect parameters `NewImageDownloader` is constructed with
(float64 in Go, exact rationals here). -/
structure ImageDownloader where
  targetAspect : ℚ
  aspectTolerance : ℚ

/-- `imageDownloader.ValidateImage` (part_000 lines 117-166) over the outcome
of its download: hard failures (network, status, MIME type, decode) are
errors; size and aspect rejections are `ok false`; otherwise `ok true`. -/
def ValidateImage (d : ImageDownloader) (outcome : ImageFetchOutcome) : Except String Bool :=
  match outcome with
  | ImageFetchOutcome.netError msg => Except.error ("error descargando imagen: " ++ msg)
  | ImageFetchOutcome.response status contentType decoded =>
    if status ≠ 200 then Except.error "código de estado inesperado"
    else if !isValidImageType contentType then
      Except.error ("tipo de imagen no soportado: " ++ contentType)
    else
      match decoded with
      | Except.error msg => Except.error ("error decodificando imagen: " ++ msg)
      | Except.ok (width, height) =>
        if width < 400 || height < 225 then Except.ok false
        else
          let aspectRatio : ℚ := (width : ℚ) / (height : ℚ)
          let minAspect := d.targetAspect - d.targetAspect * d.aspectTolerance
          let maxAspect := d.targetAspect + d.targetAspect * d.aspectTolerance
          if aspectRatio < minAspect || aspectRatio > maxAspect then Except.ok false
          else Except.ok true

/-! ## Pattern detector (src/internal/delivery/http/page_handlers.go 250-311) -/

/-- The RSS fetch as the detector sees it: URL and pattern name in, either a
candidate list or a fetch failure out. -/
abbrev PatternFetch := String → String → Except String (List NewsItem)

/-- `Handler.testPatternsWithImage` (page_handlers.go lines 272-290). -/
def testPatternsWithImage (fetch : PatternFetch) (rssURL : String) :
    List String → Except String String
  | [] => Except.error "no se encontró patrón válido con imagen"
  | pattern :: rest =>
    match fetch rssURL pattern with
    | Except.ok items =>
      if items.length > 0 then
        let validItems := items.countP (fun item =>
          item.Title != "" && item.Link != "" && item.Image != "" &&
          decide (10 < item.Title.utf8ByteSize))
        if 2 ≤ validItems then Except.ok pattern
        else testPatternsWithImage fetch rssURL rest
      else testPatternsWithImage fetch rssURL rest
    | Except.error _ => testPatternsWithImage fetch rssURL rest

/-- `Handler.testPatternsWithoutImage` (page_handlers.go lines 293-311). -/
def testPatternsWithoutImage (fetch : PatternFetch) (rssURL : String) :
    List String → Except String String
  | [] => Except.error "no se encontró patrón válido sin imagen"
  | pattern :: rest =>
    match fetch rssURL pattern with
    | Except.ok items =>
      if items.length > 0 then
        let validItems := items.countP (fun item =>
          item.Title != "" && item.Link != "" && decide (10 < item.Title.utf8ByteSize))
        if 2 ≤ validItems then Except.ok pattern
        else testPatternsWithoutImage fetch rssURL rest
      else testPatternsWithoutImage fetch rssURL rest
    | Except.error _ => testPatternsWithoutImage fetch rssURL rest

/-- `Handler.detectBestPattern` (page_handlers.go lines 252-269). The Go
guard `err == nil && bestPattern != ""` is the `Except.ok` case here: the
helpers only ever succeed with a (non-empty) name from their input list. -/
def detectBestPattern (fetch : PatternFetch) (rssURL0 : String) : Except String String :=
  let rssURL := goTrimSpace rssURL0
  match testPatternsWithImage fetch rssURL ["patron1", "patron2", "patron3"] with
  | Except.ok p => Except.ok p
  | Except.error _ =>
    match testPatternsWithoutImage fetch rssURL
        ["patron1_no_image", "patron2_no_image", "patron3_no_image"] with
    | Except.ok p => Except.ok p
    | Except.error _ => Except.error "no se pudo detectar un patrón válido para esta URL"

/-! ## Admission pipeline (src/internal/usecase/fetch_news.go, `Execute`) -/

/-- The effectful collaborators of `FetchNewsUseCase`, as oracles:
the wall clock, the source repository, the RSS fetcher (applied to a source's
URL/pattern/override columns), the image downloader, the fallback-image
repository (`""` = no fallback configured), the on-disk existence check for a
local fallback image, whether `newsItemRepo.Create` succeeds for an item, and
the result of the initial purge (`cleanOldNews`). -/
structure PipelineEnv where
  now : Int
  listActive : Except String (List NewsSource)
  fetch : NewsSource → Except String (List NewsItem)
  validateImage : String → Except String Bool
  fallbackImage : String → String → String
  fallbackExists : String → Bool
  createOk : NewsItem → Bool
  purgeErr : Option String

/-- The per-group mutable state of `Execute` (fetch_news.go lines 121-135):
admitted items, the links/cleaned-titles seen, the discard counter, the
per-source admitted counters. -/
structure GroupState where
  noticias : List NewsItem := []
  linksVistos : List String := []
  titulosVistos : List String := []
  descartadas : Nat := 0
  sourceCounts : List (String × Nat) := []
deriving DecidableEq

/-- The reason a candidate was discarded, one per discard site of the loop
body (fetch_news.go lines 177-258). -/
inductive DiscardReason
  | blacklist

  | badLength
  | dupLink
  | dupTitle
  | tooOld
  | noImageNoFallback
  | imageMissing
  | imageError
  | imageInvalid
  | fallbackFileMissing
deriving DecidableEq

/-- What processing one candidate did. -/
inductive ItemOutcome
  | discarded (r : DiscardReason)
  | storeFailed
  | admitted
deriving DecidableEq

/-- Go counter-map increment `sourceCounts[name]++`. -/
def bumpCount : List (String × Nat) → String → List (String × Nat)
  | [], k => [(k, 1)]
  | (k2, v) :: rest, k =>
    if k2 = k then (k2, v + 1) :: rest else (k2, v) :: bumpCount rest k

/-- Go counter-map read `sourceCounts[name]` (zero value 0 when absent). -/
def getCount (m : List (String × Nat)) (k : String) : Nat :=
  (lookupStr m k).getD 0

/-- Persistence tail of the loop body (fetch_news.go lines 260-287): build the
row, call `Create`; on failure `continue` leaves every piece of group state
untouched; on success append the item, mark link and title seen and bump the
per-source counter. -/
def storeItem (env : PipelineEnv) (cat lang : String) (src : NewsSource)
    (st : GroupState) (item : NewsItem) (tituloLimpio imagen : String) :
    GroupState × ItemOutcome :=
  let newsItem : NewsItem :=
    { Title := tituloLimpio, Link := item.Link, Image := imagen,
      PubDate := item.PubDate, LangCode := lang, CategoryCode := cat,
      SourceID := src.ID }
  if env.createOk newsItem then
    ({ st with
        noticias := st.noticias ++ [newsItem],
        linksVistos := item.Link :: st.linksVistos,
        titulosVistos := tituloLimpio :: st.titulosVistos,
        sourceCounts := bumpCount st.sourceCounts src.SourceName },
     ItemOutcome.admitted)
  else (st, ItemOutcome.storeFailed)

/-- Image qualification step (fetch_news.go lines 232-258) on the resolved
image URL: remote URLs go through `ValidateImage` (error → discard, invalid →
discard); local fallback URLs only get an on-disk existence check. -/
def qualifyImage (env : PipelineEnv) (cat lang : String) (src : NewsSource)
    (st : GroupState) (item : NewsItem) (tituloLimpio imagen : String) :
    GroupState × ItemOutcome :=
  if !goContains imagen "/images/fallback/" then
    match env.validateImage imagen with
    | Except.error _ =>
      ({ st with descartadas := st.descartadas + 1 },
       ItemOutcome.discarded DiscardReason.imageError)
    | Except.ok false =>
      ({ st with descartadas := st.descartadas + 1 },
       ItemOutcome.discarded DiscardReason.imageInvalid)
    | Except.ok true => storeItem env cat lang src st item tituloLimpio imagen
  else
    if env.fallbackExists imagen then
      storeItem env cat lang src st item tituloLimpio imagen
    else
      ({ st with descartadas := st.descartadas + 1 },
       ItemOutcome.discarded DiscardReason.fallbackFileMissing)

/-- The admission checks on one candidate, in source order (fetch_news.go
lines 170-287): blacklist, title length, link duplicate, title duplicate,
age, image presence (with fallback resolution for `no_image` patterns),
image qualification, then persistence. -/
def processItem (cfg : Config) (env : PipelineEnv) (cat lang : String)
    (maxDays : Int) (src : NewsSource) (st : GroupState) (item : NewsItem) :
    GroupState × ItemOutcome :=
  let tituloLimpio := cleanText item.Title
  if isBlacklisted tituloLimpio then
    ({ st with descartadas := st.descartadas + 1 },
     ItemOutcome.discarded DiscardReason.blacklist)
  else if (tituloLimpio.utf8ByteSize : Int) < cfg.Filters.MinTitle ||
      (tituloLimpio.utf8ByteSize : Int) > cfg.Filters.MaxTitle then
    ({ st with descartadas := st.descartadas + 1 },
     ItemOutcome.discarded DiscardReason.badLength)
  else if st.linksVistos.contains item.Link then
    ({ st with descartadas := st.descartadas + 1 },
     ItemOutcome.discarded DiscardReason.dupLink)
  else if st.titulosVistos.contains tituloLimpio then
    ({ st with descartadas := st.descartadas + 1 },
     ItemOutcome.discarded DiscardReason.dupTitle)
  else if maxDays * 86400 < env.now - item.PubDate then
    ({ st with descartadas := st.descartadas + 1 },
     ItemOutcome.discarded DiscardReason.tooOld)
  else if item.Image = "" then
    if goContains (getString src.Filter) "no_image" then
      let fallbackImage := env.fallbackImage cat lang
      if fallbackImage != "" then
        qualifyImage env cat lang src st item tituloLimpio fallbackImage
      else
        ({ st with descartadas := st.descartadas + 1 },
         ItemOutcome.discarded DiscardReason.noImageNoFallback)
    else
      ({ st with descartadas := st.descartadas + 1 },
       ItemOutcome.discarded DiscardReason.imageMissing)
  else qualifyImage env cat lang src st item tituloLimpio item.Image

/-- The per-source item loop (fetch_news.go lines 158-288): before each
candidate, stop the source once the group cap `tope` or the source's
`maxPerSource` is reached. -/
def runItems (cfg : Config) (env : PipelineEnv) (cat lang : String)
    (maxDays tope maxPerSource : Int) (src : NewsSource) :
    GroupState → List NewsItem → GroupState
  | st, [] => st
  | st, item :: rest =>
    if tope ≤ (st.noticias.length : Int) then st
    else if maxPerSource ≤ (getCount st.sourceCounts src.SourceName : Int) then st
    else
      runItems cfg env cat lang maxDays tope maxPerSource src
        (processItem cfg env cat lang maxDays src st item).1 rest

/-- The source loop of one group (fetch_news.go lines 137-300): a fetch error
skips the source; after a source the group stops once `tope` is reached. -/
def runSources (cfg : Config) (env : PipelineEnv) (cat lang : String)
    (maxDays tope : Int) : GroupState → List NewsSource → GroupState
  | st, [] => st
  | st, src :: rest =>
    match env.fetch src with
    | Except.error _ => runSources cfg env cat lang maxDays tope st rest
    | Except.ok feedItems =>
      let maxPerSource := cfg.GetMaxPerSource lang cat
      let st2 := runItems cfg env cat lang maxDays tope maxPerSource src st feedItems
      if tope ≤ (st2.noticias.length : Int) then st2
      else runSources cfg env cat lang maxDays tope st2 rest

/-- The group `maxDays` resolution of `Execute` (fetch_news.go lines 122-130):
the configured value, widened to the few-sources extended threshold when the
group has at most 3 sources and the threshold is larger. -/
def groupMaxDays (cfg : Config) (lang cat : String) (numSources : Nat) : Int :=
  let maxDays := cfg.GetMaxDays lang cat
  if numSources ≤ 3 then
    let extendedDays := cfg.Filters.MaxDaysForNewsWithFewSources
    if maxDays < extendedDays then extendedDays else maxDays
  else maxDays

/-- The `maxDays` used by `ExecuteForSource` (fetch_news.go line 336): the
configured value for the source's language and category, with no few-sources
adjustment. -/
def executeForSourceMaxDays (cfg : Config) (source : NewsSource) : Int :=
  cfg.GetMaxDays source.LangCode source.NewsCode

/-- Model of `strings.SplitN(s, sep, 2)`. -/
def goSplitN2 (s sep : String) : List String :=
  match goIndexList sep.toList s.toList with
  | none => [s]
  | some i =>
    [String.mk (s.toList.take i), String.mk (s.toList.drop (i + sep.toList.length))]

/-- The grouping of sources by `<categoryCode>_<langCode>` (fetch_news.go
lines 102-108). Go map iteration order is unspecified; the model fixes
first-seen key order, which no proved property depends on. -/
def buildGroups (sources : List NewsSource) : List (String × List NewsSource) :=
  sources.foldl
    (fun groups src =>
      let key := src.NewsCode ++ "_" ++ src.LangCode
      if (lookupStr groups key).isSome then
        groups.map (fun g => if g.1 = key then (g.1, g.2 ++ [src]) else g)
      else groups ++ [(key, [src])])
    []

/-- `FetchNewsUseCase.Execute` (fetch_news.go lines 83-308). A purge failure
(`env.purgeErr`) is only logged; the run is fatal exactly when listing the
active sources fails; each group is processed with its own quota resolution.
A group whose key does not split into two parts is skipped (`continue`),
modelled as the empty state. -/
def Execute (cfg : Config) (env : PipelineEnv) :
    Except String (List (String × GroupState)) :=
  match env.listActive with
  | Except.error e => Except.error ("error al obtener las fuentes de noticias: " ++ e)
  | Except.ok sources =>
    let groups := buildGroups sources
    Except.ok (groups.map (fun g =>
      match goSplitN2 g.1 "_" with
      | [cat, lang] =>
        let tope := getNewsCountUC cfg lang cat
        let maxDays := groupMaxDays cfg lang cat g.2.length
        (g.1, runSources cfg env cat lang maxDays tope {} g.2)
      | _ => (g.1, {})))

/-! ## Spec-side formulations
Predicates phrased the way the specification states the properties, to be
compared against the translated code above. -/

/-- Check 1 of the admission policy: the cleaned title is blacklisted. -/
def checkBlacklistFails (item : NewsItem) : Bool :=
  isBlacklisted (cleanText item.Title)

/-- Check 2: the cleaned title's length (UTF-8 bytes, Go `len`) is outside
`[minTitle, maxTitle]`. -/
def checkLengthFails (cfg : Config) (item : NewsItem) : Bool :=
  decide (((cleanText item.Title).utf8ByteSize : Int) < cfg.Filters.MinTitle ∨
    cfg.Filters.MaxTitle < ((cleanText item.Title).utf8ByteSize : Int))

/-- Check 3: the link was already admitted earlier in this group's run. -/
def checkDupLinkFails (st : GroupState) (item : NewsItem) : Bool :=
  st.linksVistos.contains item.Link

/-- Check 4: the cleaned title was already admitted earlier in this group's run. -/
def checkDupTitleFails (st : GroupState) (item : NewsItem) : Bool :=
  st.titulosVistos.contains (cleanText item.Title)

/-- Check 5: the candidate is older than `maxDays` days. -/
def checkAgeFails (env : PipelineEnv) (maxDays : Int) (item : NewsItem) : Bool :=
  decide (maxDays * 86400 < env.now - item.PubDate)

/-- The image the candidate ends up with: its own when non-empty, the group's
fallback when the source uses a `no_image` pattern and a fallback is
configured, nothing otherwise. -/
def resolvedImage (env : PipelineEnv) (cat lang : String) (src : NewsSource)
    (item : NewsItem) : Option String :=
  if item.Image = "" then
    if goContains (getString src.Filter) "no_image" &&
        env.fallbackImage cat lang != "" then
      some (env.fallbackImage cat lang)
    else none
  else some item.Image

/-- Check 6: no image and no fallback resolution. -/
def checkImageFails (env : PipelineEnv) (cat lang : String) (src : NewsSource)
    (item : NewsItem) : Bool :=
  (resolvedImage env cat lang src item).isNone

/-- Image qualification verdict on a resolved image URL: remote URLs must
validate to `ok true`; local fallback URLs must exist on disk. -/
def qualificationOk (env : PipelineEnv) (imagen : String) : Bool :=
  if !goContains imagen "/images/fallback/" then
    match env.validateImage imagen with
    | Except.ok true => true
    | _ => false
  else env.fallbackExists imagen

/-- Check 7: the resolved image fails qualification. -/
def checkQualificationFails (env : PipelineEnv) (cat lang : String)
    (src : NewsSource) (item : NewsItem) : Bool :=
  match resolvedImage env cat lang src item with
  | some im => !qualificationOk env im
  | none => true

/-- All seven admission checks pass. -/
def passesAllChecks (cfg : Config) (env : PipelineEnv) (cat lang : String)
    (maxDays : Int) (src : NewsSource) (st : GroupState) (item : NewsItem) : Bool :=
  !checkBlacklistFails item && !checkLengthFails cfg item &&
  !checkDupLinkFails st item && !checkDupTitleFails st item &&
  !checkAgeFails env maxDays item && !checkImageFails env cat lang src item &&
  !checkQualificationFails env cat lang src item

/-- The row an admitted candidate is persisted as. -/
def admittedRow (cat lang : String) (src : NewsSource) (item : NewsItem)
    (imagen : String) : NewsItem :=
  { Title := cleanText item.Title, Link := item.Link, Image := imagen,
    PubDate := item.PubDate, LangCode := lang, CategoryCode := cat,
    SourceID := src.ID }

/-- The group invariant of the specification: the admitted items of a group
have pairwise-distinct links and pairwise-distinct cleaned titles (an
admitted row's `Title` is the cleaned title); the seen-sets cover them. -/
def GroupInv (st : GroupState) : Prop :=
  (st.noticias.map NewsItem.Link).Nodup ∧
  (st.noticias.map NewsItem.Title).Nodup ∧
  (∀ n ∈ st.noticias, n.Link ∈ st.linksVistos) ∧
  (∀ n ∈ st.noticias, n.Title ∈ st.titulosVistos)

/-- The spec's per-alternative extraction result for the field extractor
(§4.1 of the spec): what one syntactic alternative yields on an entry. -/
def specAltYield (item : Item) (fRaw : String) : String :=
  let f := goTrimSpace fRaw
  if f = "title" then item.Title
  else if f = "media:content" then getMediaContent item
  else if f = "media:thumbnail" then getMediaThumbnail item
  else if f = "enclosure" then
    match item.Enclosures with
    | e :: _ => if goHasPrefix e.Typ "image/" then e.URL else ""
    | [] => ""
  else if f = "description_img" then (extractImgFromDescription item.Description).getD ""
  else if f = "link" then item.Link
  else if f = "pubDate" then
    match item.PublishedParsed with
    | some t => timeFormatRFC3339 t
    | none =>
      match item.UpdatedParsed with
      | some t => timeFormatRFC3339 t
      | none => ""
  else ""

/-- Modelled from the spec: `extract` returns the result of the first
alternative yielding a non-empty string, and the empty string when every
alternative fails (§4.1). The claim compares the code against this. -/
def specExtractFirstNonEmpty (item : Item) (field : String) : String :=
  ((((goSplit '|' field).map (specAltYield item)).find? (fun r => r != ""))).getD ""

/-- Whether one alternative makes the Go extractor return (the amended
success condition): every alternative succeeds exactly when its yield is
non-empty, except `enclosure`, which succeeds whenever the first enclosure
is image-typed — even with an empty URL — and `pubDate`, which succeeds
whenever the entry has a parsed publish or update time. -/
def altSucceeds (item : Item) (fRaw : String) : Bool :=
  let f := goTrimSpace fRaw
  if f = "title" then item.Title != ""
  else if f = "media:content" then getMediaContent item != ""
  else if f = "media:thumbnail" then getMediaThumbnail item != ""
  else if f = "enclosure" then
    match item.Enclosures with
    | e :: _ => goHasPrefix e.Typ "image/"
    | [] => false
  else if f = "description_img" then ((extractImgFromDescription item.Description).getD "") != ""
  else if f = "link" then item.Link != ""
  else if f = "pubDate" then item.PublishedParsed.isSome || item.UpdatedParsed.isSome
  else false

/-- Spec-side MIME acceptance: the parameter-stripped, trimmed, lowercased
media type is one of the four supported image types. -/
def specMimeTypeOk (contentType : String) : Bool :=
  ["image/jpeg", "image/png", "image/webp", "image/gif"].contains
    (goToLower (goTrimSpace (takeBeforeSemicolon contentType)))

/-- Spec-side acceptance condition of `validate` (§4.3): 200 download,
supported MIME type, successful decode, both dimensions at least 400×225,
aspect ratio within `[target·(1−tol), target·(1+tol)]`. -/
def specImageAccept (d : ImageDownloader) (o : ImageFetchOutcome) : Prop :=
  match o with
  | ImageFetchOutcome.netError _ => False
  | ImageFetchOutcome.response st ct dec =>
    st = 200 ∧ isValidImageType ct = true ∧
    ∃ w h : Nat, dec = Except.ok (w, h) ∧ 400 ≤ w ∧ 225 ≤ h ∧
      d.targetAspect * (1 - d.aspectTolerance) ≤ (w : ℚ) / (h : ℚ) ∧
      (w : ℚ) / (h : ℚ) ≤ d.targetAspect * (1 + d.aspectTolerance)

/-- Spec-side soft rejection of `validate`: all hard checks pass but the
size or aspect requirement fails. -/
def specImageSoftReject (d : ImageDownloader) (o : ImageFetchOutcome) : Prop :=
  match o with
  | ImageFetchOutcome.netError _ => False
  | ImageFetchOutcome.response st ct dec =>
    st = 200 ∧ isValidImageType ct = true ∧
    ∃ w h : Nat, dec = Except.ok (w, h) ∧
      (w < 400 ∨ h < 225 ∨ (w : ℚ) / (h : ℚ) < d.targetAspect * (1 - d.aspectTolerance) ∨
        d.targetAspect * (1 + d.aspectTolerance) < (w : ℚ) / (h : ℚ))

/-- Spec-side hard failure of `validate`: network failure, non-200 status,
unsupported MIME type, or decode failure. -/
def specImageHardFailure (o : ImageFetchOutcome) : Prop :=
  match o with
  | ImageFetchOutcome.netError _ => True
  | ImageFetchOutcome.response st ct dec =>
    st ≠ 200 ∨ isValidImageType ct = false ∨ ∃ m, dec = Except.error m

/-- Hit at `map[lang][cat]` of a nested config map, when that slot holds an
`int`. -/
def nestedIntAt (m : NestedMap) (lang cat : String) : Option Int :=
  match m with
  | none => none
  | some mm =>
    match lookupStr mm lang with
    | some (OuterVal.omap langMap) =>
      match lookupStr langMap cat with
      | some (GoVal.vint n) => some n
      | _ => none
    | _ => none

/-- Hit at the top-level `"default"` key of a nested config map, when it
holds an `int`. -/
def nestedTopDefault (m : NestedMap) : Option Int :=
  match m with
  | none => none
  | some mm =>
    match lookupStr mm "default" with
    | some (OuterVal.oval (GoVal.vint n)) => some n
    | _ => none

/-- The spec's fallback chain `lang.category → lang.default → global default
→ hard-coded fallback` for a nested config map. -/
def chainResolve (m : NestedMap) (lang cat : String) (fallback : Int) : Int :=
  (((nestedIntAt m lang cat).orElse (fun _ => nestedIntAt m lang "default")).orElse
    (fun _ => nestedTopDefault m)).getD fallback

/-- Spec-side pass condition of the pattern detector for an image-bearing
pattern: fetching succeeds and yields at least 2 candidates with a title
longer than 10 bytes, a non-empty link and a non-empty image. -/
def patternQualifiesWithImage (fetch : PatternFetch) (url pattern : String) : Bool :=
  match fetch url pattern with
  | Except.error _ => false
  | Except.ok items =>
    2 ≤ items.countP (fun item =>
      decide (10 < item.Title.utf8ByteSize) && item.Link != "" && item.Image != "")

/-- Spec-side pass condition for a no-image pattern: same threshold without
the image requirement. -/
def patternQualifiesWithoutImage (fetch : PatternFetch) (url pattern : String) : Bool :=
  match fetch url pattern with
  | Except.error _ => false
  | Except.ok items =>
    2 ≤ items.countP (fun item =>
      decide (10 < item.Title.utf8ByteSize) && item.Link != "")

/-! ## Concrete fixtures for counterexamples and witnesses -/

/-- A benign environment: clock at 1000000, empty source list, fetches yield
nothing, every image validates, no fallback configured, storage succeeds,
purge succeeded. -/
def envBase : PipelineEnv where
  now := 1000000
  listActive := Except.ok []
  fetch := fun _ => Except.ok []
  validateImage := fun _ => Except.ok true
  fallbackImage := fun _ _ => ""
  fallbackExists := fun _ => false
  createOk := fun _ => true
  purgeErr := none

/-- `envBase` with a storage layer whose `Create` always fails. -/
def envFailStore : PipelineEnv :=
  { envBase with createOk := fun _ => false }

/-- `envBase` with an RSS fetcher that always fails. -/
def envFetchErr : PipelineEnv :=
  { envBase with fetch := fun _ => Except.error "net" }

/-- A small filter configuration (min 10, max 200, 5 days, 10 extended). -/
def cfg0 : Config where
  Filters := { MinTitle := 10, MaxTitle := 200, MaxDays := 5,
               MaxDaysForNewsWithFewSources := 10 }

/-- A source using the image-bearing pattern `patron1`. -/
def src0 : NewsSource where
  ID := 1
  SourceName := "s1"
  RSSURL := "http://feed.example/rss"
  Filter := some "patron1"
  LangCode := "es"
  NewsCode := "technology"

/-- A candidate that passes all seven admission checks under `cfg0`/`envBase`. -/
def item0 : NewsItem where
  Title := "Example Headline Today"
  Link := "http://x/1"
  Image := "http://x/a.jpg"
  PubDate := 999000

/-- A feed entry whose first enclosure is image-typed with an empty URL while
`media:content` carries a URL: the extractor's `enclosure` case returns the
empty URL instead of falling through. -/
def c3Item : Item where
  Enclosures := [{ URL := "", Typ := "image/jpeg" }]
  Extensions := [("media", [("content", [{ Attrs := [("url", "http://x/a.jpg")] }])])]

/-- A feed entry with an unparseable explicit date field and a parsed publish
time, separating the code's explicit-override fallback from the spec's. -/
def c5Item : Item where
  Title := "notadate"
  PublishedParsed := some 1000

/-! ## Theorems -/

/-- Claim C4: the minimal `<img src>` scan is not total: on the malformed tag
`<img src=>` the Go code evaluates `imgTag[srcIdx+4]` with `srcIdx+4` equal
to the truncated tag's length and panics with an index-out-of-range runtime
error (`none` in this model), while the other malformed shapes — missing
`src=`, unbalanced quote, no `<img ` at all — do return the empty string. -/
theorem claim_c4_img_scan_panic_on_bare_src :
    extractImgFromDescription "<img src=>" = none ∧
    extractImgFromDescription "<img href=a>" = some "" ∧
    extractImgFromDescription "<img src=\"abc>" = some "" ∧
    extractImgFromDescription "no image here" = some "" := by
  refine ⟨?_, ?_, ?_, ?_⟩ <;> decide

/-- The Go fallback-chain helper equals the spec's
`lang.category → lang.default → global default → fallback` resolution. -/
theorem getIntValueFromNestedMap_eq_chain (m : NestedMap) (lang cat : String)
    (fb : Int) : getIntValueFromNestedMap m lang cat fb = chainResolve m lang cat fb := by
  cases m with
  | none => simp [getIntValueFromNestedMap, chainResolve, nestedIntAt, nestedTopDefault]
  | some mm =>
    simp only [getIntValueFromNestedMap, chainResolve, nestedIntAt, nestedTopDefault]
    rcases hl : lookupStr mm lang with _ | ov
    · rcases hd : lookupStr mm "default" with _ | dv
      · simp [hl, hd, Option.orElse]
      · rcases dv with dm | dvv
        · simp [hl, hd, Option.orElse]
        · rcases dvv with n | n | _ <;> simp [hl, hd, Option.orElse]
    · rcases ov with lm | ovv
      · rcases hc : lookupStr lm cat with _ | cv
        · rcases hdd : lookupStr lm "default" with _ | dv2
          · rcases hd : lookupStr mm "default" with _ | dv
            · simp [hl, hc, hdd, hd, Option.orElse]
            · rcases dv with dm | dvv
              · simp [hl, hc, hdd, hd, Option.orElse]
              · rcases dvv with n | n | _ <;> simp [hl, hc, hdd, hd, Option.orElse]
          · rcases dv2 with n | n | _
            · simp [hl, hc, hdd, Option.orElse]
            all_goals
              rcases hd : lookupStr mm "default" with _ | dv
              · simp [hl, hc, hdd, hd, Option.orElse]
              · rcases dv with dm | dvv
                · simp [hl, hc, hdd, hd, Option.orElse]
                · rcases dvv with k | k | _ <;> simp [hl, hc, hdd, hd, Option.orElse]
        · rcases cv with n | n | _
          · simp [hl, hc, Option.orElse]
          all_goals
            rcases hdd : lookupStr lm "default" with _ | dv2
            · rcases hd : lookupStr mm "default" with _ | dv
              · simp [hl, hc, hdd, hd, Option.orElse]
              · rcases dv with dm | dvv
                · simp [hl, hc, hdd, hd, Option.orElse]
                · rcases dvv with k | k | _ <;> simp [hl, hc, hdd, hd, Option.orElse]
            · rcases dv2 with k | k | _
              · simp [hl, hc, hdd, Option.orElse]
              all_goals
                rcases hd : lookupStr mm "default" with _ | dv
                · simp [hl, hc, hdd, hd, Option.orElse]
                · rcases dv with dm | dvv
                  · simp [hl, hc, hdd, hd, Option.orElse]
                  · rcases dvv with j | j | _ <;> simp [hl, hc, hdd, hd, Option.orElse]
      · rcases ovv with n | n | _ <;>
        · rcases hd : lookupStr mm "default" with _ | dv
          · simp [hl, hd, Option.orElse]
          · rcases dv with dm | dvv
            · simp [hl, hd, Option.orElse]
            · rcases dvv with k | k | _ <;> simp [hl, hd, Option.orElse]

/-- Claim C7: the full run's per-group `maxDays` is the fallback-chain value,
replaced by the maximum of itself and the few-sources extended threshold when
the group has at most 3 sources; the single-source run's `maxDays` is the
bare fallback-chain value with no such adjustment. -/
theorem claim_c7_maxdays_resolution :
    (∀ (cfg : Config) (lang cat : String) (n : Nat),
      groupMaxDays cfg lang cat n =
        if n ≤ 3 then
          max (chainResolve cfg.MaxDays lang cat 5) cfg.Filters.MaxDaysForNewsWithFewSources
        else chainResolve cfg.MaxDays lang cat 5) ∧
    (∀ (cfg : Config) (source : NewsSource),
      executeForSourceMaxDays cfg source =
        chainResolve cfg.MaxDays source.LangCode source.NewsCode 5) := by
  constructor
  · intro cfg lang cat n
    simp only [groupMaxDays, Config.GetMaxDays, getIntValueFromNestedMap_eq_chain]
    by_cases hn : n ≤ 3
    · simp only [hn, if_true]
      omega
    · simp [hn]
  · intro cfg source
    simp only [executeForSourceMaxDays, Config.GetMaxDays, getIntValueFromNestedMap_eq_chain]

/-- The Go MIME check accepts exactly the four supported image media types,
after parameter stripping, trimming and lowercasing. -/
theorem isValidImageType_eq_spec (ct : String) :
    isValidImageType ct = specMimeTypeOk ct := by
  unfold isValidImageType mimeExtensionsByType specMimeTypeOk
  generalize goToLower (goTrimSpace (takeBeforeSemicolon ct)) = b
  by_cases h1 : b = "image/avif"
  · subst h1; decide
  by_cases h2 : b = "image/gif"
  · subst h2; decide
  by_cases h3 : b = "image/jpeg"
  · subst h3; decide
  by_cases h4 : b = "image/png"
  · subst h4; decide
  by_cases h5 : b = "image/svg+xml"
  · subst h5; decide
  by_cases h6 : b = "image/webp"
  · subst h6; decide
  by_cases h7 : b = "text/html"
  · subst h7; decide
  by_cases h8 : b = "application/pdf"
  · subst h8; decide
  by_cases h9 : b = "text/plain"
  · subst h9; decide
  have r1 : ¬("image/avif" = b) := fun h => h1 h.symm
  have r2 : ¬("image/gif" = b) := fun h => h2 h.symm
  have r3 : ¬("image/jpeg" = b) := fun h => h3 h.symm
  have r4 : ¬("image/png" = b) := fun h => h4 h.symm
  have r5 : ¬("image/svg+xml" = b) := fun h => h5 h.symm
  have r6 : ¬("image/webp" = b) := fun h => h6 h.symm
  have r7 : ¬("text/html" = b) := fun h => h7 h.symm
  have r8 : ¬("application/pdf" = b) := fun h => h8 h.symm
  have r9 : ¬("text/plain" = b) := fun h => h9 h.symm
  simp only [builtinMimeExtensions, lookupStr, if_neg r1, if_neg r2, if_neg r3,
    if_neg r4, if_neg r5, if_neg r6, if_neg r7, if_neg r8, if_neg r9]
  by_cases hs : goContains b "/" = true <;>
    simp [hs, List.contains, h1, h2, h3, h4, h6]

/-- `ValidateImage` succeeds with `true` exactly on the spec acceptance
condition. -/
theorem validate_ok_true_iff (d : ImageDownloader) (o : ImageFetchOutcome) :
    ValidateImage d o = Except.ok true ↔ specImageAccept d o := by
  have hb1 : d.targetAspect * (1 - d.aspectTolerance) =
      d.targetAspect - d.targetAspect * d.aspectTolerance := by ring
  have hb2 : d.targetAspect * (1 + d.aspectTolerance) =
      d.targetAspect + d.targetAspect * d.aspectTolerance := by ring
  cases o with
  | netError msg => simp [ValidateImage, specImageAccept]
  | response st ct dec =>
    by_cases hst : st = 200
    · subst hst
      by_cases hty : isValidImageType ct = true
      · cases dec with
        | error m => simp [ValidateImage, hty, specImageAccept]
        | ok wh =>
          obtain ⟨w, h⟩ := wh
          by_cases hw : w < 400
          · have hw2 : ¬ 400 ≤ w := by omega
            simp [ValidateImage, hty, hw, hw2, specImageAccept]
          · by_cases hh : h < 225
            · have hh2 : ¬ 225 ≤ h := by omega
              simp [ValidateImage, hty, hw, hh, hh2, specImageAccept]
            · by_cases hlo : (w : ℚ) / (h : ℚ) <
                  d.targetAspect - d.targetAspect * d.aspectTolerance
              · have hlo2 : ¬ d.targetAspect * (1 - d.aspectTolerance) ≤ (w : ℚ) / (h : ℚ) := by
                  rw [hb1]; exact not_le.mpr hlo
                simp [ValidateImage, hty, hw, hh, hlo, hlo2, specImageAccept]
              · by_cases hhi : d.targetAspect + d.targetAspect * d.aspectTolerance <
                    (w : ℚ) / (h : ℚ)
                · have hhi2 : ¬ (w : ℚ) / (h : ℚ) ≤ d.targetAspect * (1 + d.aspectTolerance) := by
                    rw [hb2]; exact not_le.mpr hhi
                  simp [ValidateImage, hty, hw, hh, hlo, hhi, hhi2, specImageAccept]
                  intros
                  exact not_le.mp hhi2
                · have h400 : 400 ≤ w := by omega
                  have h225 : 225 ≤ h := by omega
                  have hlo2 : d.targetAspect * (1 - d.aspectTolerance) ≤ (w : ℚ) / (h : ℚ) := by
                    rw [hb1]; exact not_lt.mp hlo
                  have hhi2 : (w : ℚ) / (h : ℚ) ≤ d.targetAspect * (1 + d.aspectTolerance) := by
                    rw [hb2]; exact not_lt.mp hhi
                  simp [ValidateImage, hty, hw, hh, hlo, hhi, h400, h225, hlo2, hhi2,
                    specImageAccept]
                  exact ⟨w, h, ⟨rfl, rfl⟩, h400, h225, hlo2, hhi2⟩
      · simp only [Bool.not_eq_true] at hty
        simp [ValidateImage, hty, specImageAccept]
    · simp [ValidateImage, hst, specImageAccept]

/-- `ValidateImage` returns `false` without an error exactly on the spec's
soft rejections. -/
theorem validate_ok_false_iff (d : ImageDownloader) (o : ImageFetchOutcome) :
    ValidateImage d o = Except.ok false ↔ specImageSoftReject d o := by
  have hb1 : d.targetAspect * (1 - d.aspectTolerance) =
      d.targetAspect - d.targetAspect * d.aspectTolerance := by ring
  have hb2 : d.targetAspect * (1 + d.aspectTolerance) =
      d.targetAspect + d.targetAspect * d.aspectTolerance := by ring
  cases o with
  | netError msg => simp [ValidateImage, specImageSoftReject]
  | response st ct dec =>
    by_cases hst : st = 200
    · subst hst
      by_cases hty : isValidImageType ct = true
      · cases dec with
        | error m => simp [ValidateImage, hty, specImageSoftReject]
        | ok wh =>
          obtain ⟨w, h⟩ := wh
          by_cases hw : w < 400
          · simp [ValidateImage, hty, hw, specImageSoftReject]
            exact ⟨w, h, ⟨rfl, rfl⟩, Or.inl hw⟩
          · by_cases hh : h < 225
            · simp [ValidateImage, hty, hw, hh, specImageSoftReject]
              exact ⟨w, h, ⟨rfl, rfl⟩, Or.inr (Or.inl hh)⟩
            · by_cases hlo : (w : ℚ) / (h : ℚ) <
                  d.targetAspect - d.targetAspect * d.aspectTolerance
              · have hlo2 : (w : ℚ) / (h : ℚ) < d.targetAspect * (1 - d.aspectTolerance) := by
                  rw [hb1]; exact hlo
                simp [ValidateImage, hty, hw, hh, hlo, hlo2, specImageSoftReject]
                exact ⟨w, h, ⟨rfl, rfl⟩, Or.inr (Or.inr (Or.inl hlo2))⟩
              · by_cases hhi : d.targetAspect + d.targetAspect * d.aspectTolerance <
                    (w : ℚ) / (h : ℚ)
                · have hhi2 : d.targetAspect * (1 + d.aspectTolerance) < (w : ℚ) / (h : ℚ) := by
                    rw [hb2]; exact hhi
                  simp [ValidateImage, hty, hw, hh, hlo, hhi, hhi2, specImageSoftReject]
                  exact ⟨w, h, ⟨rfl, rfl⟩, Or.inr (Or.inr (Or.inr hhi2))⟩
                · have hlo2 : ¬ (w : ℚ) / (h : ℚ) < d.targetAspect * (1 - d.aspectTolerance) := by
                    rw [hb1]; exact hlo
                  have hhi2 : ¬ d.targetAspect * (1 + d.aspectTolerance) < (w : ℚ) / (h : ℚ) := by
                    rw [hb2]; exact hhi
                  simp [ValidateImage, hty, hw, hh, hlo, hhi, hlo2, hhi2,
                    specImageSoftReject]
                  exact ⟨by omega, by omega, not_lt.mp hlo2, not_lt.mp hhi2⟩
      · simp only [Bool.not_eq_true] at hty
        simp [ValidateImage, hty, specImageSoftReject]
    · simp [ValidateImage, hst, specImageSoftReject]

/-- `ValidateImage` fails with an error exactly on the spec's hard failures. -/
theorem validate_error_iff (d : ImageDownloader) (o : ImageFetchOutcome) :
    (∃ e, ValidateImage d o = Except.error e) ↔ specImageHardFailure o := by
  cases o with
  | netError msg => simp [ValidateImage, specImageHardFailure]
  | response st ct dec =>
    by_cases hst : st = 200
    · subst hst
      by_cases hty : isValidImageType ct = true
      · cases dec with
        | error m => simp [ValidateImage, hty, specImageHardFailure]
        | ok wh =>
          obtain ⟨w, h⟩ := wh
          by_cases hw : w < 400
          · simp [ValidateImage, hty, hw, specImageHardFailure]
          · by_cases hh : h < 225
            · simp [ValidateImage, hty, hw, hh, specImageHardFailure]
            · by_cases hlo : (w : ℚ) / (h : ℚ) <
                  d.targetAspect - d.targetAspect * d.aspectTolerance
              · simp [ValidateImage, hty, hw, hh, hlo, specImageHardFailure]
              · by_cases hhi : d.targetAspect + d.targetAspect * d.aspectTolerance <
                    (w : ℚ) / (h : ℚ)
                · simp [ValidateImage, hty, hw, hh, hlo, hhi, specImageHardFailure]
                · simp [ValidateImage, hty, hw, hh, hlo, hhi, specImageHardFailure]
      · simp only [Bool.not_eq_true] at hty
        simp [ValidateImage, hty, specImageHardFailure]
    · simp [ValidateImage, hst, specImageHardFailure]

/-- Claim C6: `ValidateImage` answers `ok true` exactly on the spec's full
acceptance condition (200 download, supported MIME type, decode, 400×225
minimum, aspect within `[target·(1−tol), target·(1+tol)]`), `ok false`
exactly on the soft rejections (size or aspect), an error exactly on the
hard failures (network, status, MIME type, decode), and its MIME check is
the case-insensitive jpeg/png/webp/gif test. -/
theorem claim_c6_validate_image (d : ImageDownloader) (o : ImageFetchOutcome) :
    (ValidateImage d o = Except.ok true ↔ specImageAccept d o) ∧
    (ValidateImage d o = Except.ok false ↔ specImageSoftReject d o) ∧
    ((∃ e, ValidateImage d o = Except.error e) ↔ specImageHardFailure o) ∧
    (∀ ct, isValidImageType ct = specMimeTypeOk ct) :=
  ⟨validate_ok_true_iff d o, validate_ok_false_iff d o, validate_error_iff d o,
    fun ct => isValidImageType_eq_spec ct⟩

/-- The detector's per-candidate validity test equals the spec's (a title of
more than 10 bytes is in particular non-empty). -/
theorem detectPredImage_eq (item : NewsItem) :
    (item.Title != "" && item.Link != "" && item.Image != "" &&
      decide (10 < item.Title.utf8ByteSize)) =
    (decide (10 < item.Title.utf8ByteSize) && item.Link != "" && item.Image != "") := by
  by_cases hb : 10 < item.Title.utf8ByteSize
  · have hne : item.Title ≠ "" := by
      intro h
      rw [h] at hb
      exact absurd hb (by decide)
    have ht : (item.Title != "") = true := by simp [hne]
    simp [hb, ht, Bool.and_comm, Bool.and_assoc, Bool.and_left_comm]
  · simp [hb]

/-- Same for the no-image variant. -/
theorem detectPredNoImage_eq (item : NewsItem) :
    (item.Title != "" && item.Link != "" && decide (10 < item.Title.utf8ByteSize)) =
    (decide (10 < item.Title.utf8ByteSize) && item.Link != "") := by
  by_cases hb : 10 < item.Title.utf8ByteSize
  · have hne : item.Title ≠ "" := by
      intro h
      rw [h] at hb
      exact absurd hb (by decide)
    have ht : (item.Title != "") = true := by simp [hne]
    simp [hb, ht, Bool.and_comm]
  · simp [hb]

/-- The image-pattern probe returns the first pattern of its list passing the
spec condition, and the fixed error when none does. -/
theorem testPatternsWithImage_eq_find (fetch : PatternFetch) (url : String)
    (l : List String) :
    testPatternsWithImage fetch url l =
      (match l.find? (patternQualifiesWithImage fetch url) with
       | some p => Except.ok p
       | none => Except.error "no se encontró patrón válido con imagen") := by
  induction l with
  | nil => rfl
  | cons p rest ih =>
    unfold testPatternsWithImage
    cases hf : fetch url p with
    | error e =>
      have hq : patternQualifiesWithImage fetch url p = false := by
        simp [patternQualifiesWithImage, hf]
      simp [List.find?, hq, ih]
    | ok items =>
      have hcount : items.countP (fun item =>
          item.Title != "" && item.Link != "" && item.Image != "" &&
            decide (10 < item.Title.utf8ByteSize)) =
          items.countP (fun item =>
            decide (10 < item.Title.utf8ByteSize) && item.Link != "" &&
              item.Image != "") := by
        exact List.countP_congr (fun a _ => by rw [detectPredImage_eq a])
      by_cases hq : 2 ≤ items.countP (fun item =>
          decide (10 < item.Title.utf8ByteSize) && item.Link != "" && item.Image != "")
      · have hqq : patternQualifiesWithImage fetch url p = true := by
          simp [patternQualifiesWithImage, hf, hq]
        have hlen : 0 < items.length :=
          lt_of_lt_of_le (by omega) (le_trans hq (List.countP_le_length _))
        simp [List.find?, hqq, hf, hcount, hq, hlen]
      · have hqq : patternQualifiesWithImage fetch url p = false := by
          simp [patternQualifiesWithImage, hf, hq]
        by_cases hlen : 0 < items.length
        · simp [List.find?, hqq, hf, hcount, hq, hlen, ih]
        · simp [List.find?, hqq, hf, hlen, ih]

/-- The no-image probe returns the first pattern of its list passing the
spec condition (image requirement omitted), and the fixed error otherwise. -/
theorem testPatternsWithoutImage_eq_find (fetch : PatternFetch) (url : String)
    (l : List String) :
    testPatternsWithoutImage fetch url l =
      (match l.find? (patternQualifiesWithoutImage fetch url) with
       | some p => Except.ok p
       | none => Except.error "no se encontró patrón válido sin imagen") := by
  induction l with
  | nil => rfl
  | cons p rest ih =>
    unfold testPatternsWithoutImage
    cases hf : fetch url p with
    | error e =>
      have hq : patternQualifiesWithoutImage fetch url p = false := by
        simp [patternQualifiesWithoutImage, hf]
      simp [List.find?, hq, ih]
    | ok items =>
      have hcount : items.countP (fun item =>
          item.Title != "" && item.Link != "" && decide (10 < item.Title.utf8ByteSize)) =
          items.countP (fun item =>
            decide (10 < item.Title.utf8ByteSize) && item.Link != "") := by
        exact List.countP_congr (fun a _ => by rw [detectPredNoImage_eq a])
      by_cases hq : 2 ≤ items.countP (fun item =>
          decide (10 < item.Title.utf8ByteSize) && item.Link != "")
      · have hqq : patternQualifiesWithoutImage fetch url p = true := by
          simp [patternQualifiesWithoutImage, hf, hq]
        have hlen : 0 < items.length :=
          lt_of_lt_of_le (by omega) (le_trans hq (List.countP_le_length _))
        simp [List.find?, hqq, hf, hcount, hq, hlen]
      · have hqq : patternQualifiesWithoutImage fetch url p = false := by
          simp [patternQualifiesWithoutImage, hf, hq]
        by_cases hlen : 0 < items.length
        · simp [List.find?, hqq, hf, hcount, hq, hlen, ih]
        · simp [List.find?, hqq, hf, hlen, ih]

/-- Claim C8: pattern detection probes `patron1`, `patron2`, `patron3` in
that order and returns the first whose fetch yields at least 2 candidates
with a >10-byte title, non-empty link and non-empty image; when none passes
it probes the three `no_image` variants with the same threshold minus the
image requirement; it errors exactly when no pattern qualifies. -/
theorem claim_c8_detect_pattern (fetch : PatternFetch) (url : String) :
    detectBestPattern fetch url =
      (match ["patron1", "patron2", "patron3"].find?
          (patternQualifiesWithImage fetch (goTrimSpace url)) with
       | some p => Except.ok p
       | none =>
         match ["patron1_no_image", "patron2_no_image", "patron3_no_image"].find?
             (patternQualifiesWithoutImage fetch (goTrimSpace url)) with
         | some p => Except.ok p
         | none => Except.error "no se pudo detectar un patrón válido para esta URL") := by
  unfold detectBestPattern
  dsimp only
  rw [testPatternsWithImage_eq_find, testPatternsWithoutImage_eq_find]
  cases ["patron1", "patron2", "patron3"].find?
      (patternQualifiesWithImage fetch (goTrimSpace url)) with
  | some p => rfl
  | none =>
    cases ["patron1_no_image", "patron2_no_image", "patron3_no_image"].find?
        (patternQualifiesWithoutImage fetch (goTrimSpace url)) with
    | some p => rfl
    | none => rfl

/-- The extractor's alternative loop returns the yield of the first
alternative satisfying the (amended) success condition, and the empty string
when none succeeds — provided no reached `description_img` scan panics. -/
theorem extractFieldList_eq_find (item : Item) (alts : List String)
    (hp : ∀ f ∈ alts, goTrimSpace f = "description_img" →
      (extractImgFromDescription item.Description).isSome) :
    extractFieldList item alts =
      some (((alts.find? (altSucceeds item)).map (specAltYield item)).getD "") := by
  induction alts with
  | nil => rfl
  | cons f0 rest ih =>
    have hrest : ∀ f ∈ rest, goTrimSpace f = "description_img" →
        (extractImgFromDescription item.Description).isSome :=
      fun f hf => hp f (List.mem_cons_of_mem _ hf)
    have ihr := ih hrest
    unfold extractFieldList
    by_cases h1 : goTrimSpace f0 = "title"
    · by_cases ht : item.Title = ""
      · simp [h1, ht, List.find?, altSucceeds, ihr]
      · have hb : (item.Title != "") = true := by simp [ht]
        simp [h1, ht, hb, List.find?, altSucceeds, specAltYield]
    · by_cases h2 : goTrimSpace f0 = "media:content"
      · by_cases hm : getMediaContent item = ""
        · simp [h1, h2, hm, List.find?, altSucceeds, ihr]
        · have hb : (getMediaContent item != "") = true := by simp [hm]
          simp [h1, h2, hm, hb, List.find?, altSucceeds, specAltYield]
      · by_cases h3 : goTrimSpace f0 = "media:thumbnail"
        · by_cases hm : getMediaThumbnail item = ""
          · simp [h1, h2, h3, hm, List.find?, altSucceeds, ihr]
          · have hb : (getMediaThumbnail item != "") = true := by simp [hm]
            simp [h1, h2, h3, hm, hb, List.find?, altSucceeds, specAltYield]
        · by_cases h4 : goTrimSpace f0 = "enclosure"
          · cases he : item.Enclosures with
            | nil => simp [h1, h2, h3, h4, he, List.find?, altSucceeds, ihr]
            | cons e etail =>
              by_cases hpre : goHasPrefix e.Typ "image/" = true
              · simp [h1, h2, h3, h4, he, hpre, List.find?, altSucceeds, specAltYield]
              · simp [h1, h2, h3, h4, he, hpre, List.find?, altSucceeds, ihr]
          · by_cases h5 : goTrimSpace f0 = "description_img"
            · have hsome := hp f0 (List.mem_cons_self f0 rest) h5
              obtain ⟨r, hr⟩ := Option.isSome_iff_exists.mp hsome
              by_cases hrr : r = ""
              · simp [h1, h2, h3, h4, h5, hr, hrr, List.find?, altSucceeds, ihr]
              · have hb : (r != "") = true := by simp [hrr]
                simp [h1, h2, h3, h4, h5, hr, hrr, hb, List.find?, altSucceeds,
                  specAltYield]
            · by_cases h6 : goTrimSpace f0 = "link"
              · by_cases hl : item.Link = ""
                · simp [h1, h2, h3, h4, h5, h6, hl, List.find?, altSucceeds, ihr]
                · have hb : (item.Link != "") = true := by simp [hl]
                  simp [h1, h2, h3, h4, h5, h6, hl, hb, List.find?, altSucceeds,
                    specAltYield]
              · by_cases h7 : goTrimSpace f0 = "pubDate"
                · cases hpub : item.PublishedParsed with
                  | some t =>
                    simp [h1, h2, h3, h4, h5, h6, h7, hpub, List.find?, altSucceeds,
                      specAltYield]
                  | none =>
                    cases hupd : item.UpdatedParsed with
                    | some t =>
                      simp [h1, h2, h3, h4, h5, h6, h7, hpub, hupd, List.find?,
                        altSucceeds, specAltYield]
                    | none =>
                      simp [h1, h2, h3, h4, h5, h6, h7, hpub, hupd, List.find?,
                        altSucceeds, ihr]
                · simp [h1, h2, h3, h4, h5, h6, h7, List.find?, altSucceeds, ihr]

/-- Claim C3, counterexample: with a first enclosure typed `image/jpeg` but
carrying an empty URL and a `media:content` URL present, the extractor
returns the empty string for `enclosure|media:content` instead of the first
non-empty alternative result the spec promises. -/
theorem claim_c3_counterexample_enclosure :
    extractFieldFromItem c3Item "enclosure|media:content" = some "" ∧
    specExtractFirstNonEmpty c3Item "enclosure|media:content" = "http://x/a.jpg" ∧
    "" ≠ "http://x/a.jpg" := by
  refine ⟨?_, ?_, ?_⟩ <;> decide

/-- Claim C3, amended: the extractor tries the `|`-alternatives left-to-right
and returns the yield of the first alternative that succeeds (empty string
when none does), where success means a non-empty yield for every alternative
except `enclosure` — which succeeds whenever the first enclosure is
image-typed, even with an empty URL — and `pubDate` — which succeeds whenever
the entry has a parsed publish or update time; stated for entries whose
`description_img` scan does not panic. -/
theorem claim_c3_amended_first_success (item : Item) (field : String)
    (hp : ∀ f ∈ goSplit '|' field, goTrimSpace f = "description_img" →
      (extractImgFromDescription item.Description).isSome) :
    extractFieldFromItem item field =
      some ((((goSplit '|' field).find? (altSucceeds item)).map (specAltYield item)).getD "") := by
  unfold extractFieldFromItem
  exact extractFieldList_eq_find item _ hp

/-- Witness for the amended C3 theorem at a concrete feed entry and field
list. -/
theorem claim_c3_amended_first_success_witness :
    (∀ f ∈ goSplit '|' "enclosure|media:content", goTrimSpace f = "description_img" →
      (extractImgFromDescription c3Item.Description).isSome) ∧
    extractFieldFromItem c3Item "enclosure|media:content" =
      some ((((goSplit '|' "enclosure|media:content").find? (altSucceeds c3Item)).map
        (specAltYield c3Item)).getD "") :=
  ⟨by decide, claim_c3_amended_first_success c3Item "enclosure|media:content" (by decide)⟩

/-- Claim C5, counterexample: with an explicit override date field whose
value does not parse, the code falls back directly to the current wall-clock
time (5000) even though the entry has a parsed publish time (1000), so the
publish-time step of the claimed priority chain is skipped in the
explicit-override case. -/
theorem claim_c5_counterexample_override_date :
    fetchResolveDate 5000 "" "title" c5Item = some 5000 ∧
    c5Item.PublishedParsed = some 1000 ∧ (5000 : Int) ≠ 1000 := by
  refine ⟨?_, ?_, ?_⟩ <;> decide

/-- Claim C5, amended: in the named-pattern case the date is the strict-parse
result of the pattern's date field, falling back to the entry's parsed
publish time, then its parsed update time, then the current time; in the
explicit-override case a parse failure falls back directly to the current
time (`map` propagates a field-extractor panic). -/
theorem claim_c5_amended_date_priority (now : Int) (filter dateField : String)
    (item : Item) :
    fetchResolveDate now filter dateField item =
      (if dateField = "" then
        (extractFieldFromItem item (getPattern filter).DateField).map (fun s =>
          match timeParseRFC3339 s with
          | some t => t
          | none => (item.PublishedParsed.orElse (fun _ => item.UpdatedParsed)).getD now)
      else
        (extractFieldFromItem item dateField).map (fun s =>
          (timeParseRFC3339 s).getD now)) := by
  by_cases h : dateField = ""
  · simp only [fetchResolveDate, h, if_true, ne_eq, not_true_eq_false, if_false]
    cases he : extractFieldFromItem item (getPattern filter).DateField with
    | none => simp
    | some s =>
      cases ht : timeParseRFC3339 s with
      | none =>
        cases hpub : item.PublishedParsed with
        | some t => simp [ht, hpub, Option.orElse]
        | none =>
          cases hupd : item.UpdatedParsed with
          | some t => simp [ht, hpub, hupd, Option.orElse]
          | none => simp [ht, hpub, hupd, Option.orElse]
      | some t => simp [ht]
  · simp only [fetchResolveDate, h, ne_eq, not_false_eq_true, if_true, if_false]
    cases he : extractFieldFromItem item dateField with
    | none => simp
    | some s =>
      cases ht : timeParseRFC3339 s with
      | none => simp [ht]
      | some t => simp [ht]

/-- Normal form of the qualification-and-store tail: qualification failure
discards (with the reason the code logs), qualification success attempts the
store, and the store's success decides admitted versus untouched state. -/
theorem qualifyImage_eq (env : PipelineEnv) (cat lang : String) (src : NewsSource)
    (st : GroupState) (item : NewsItem) (imagen : String) :
    qualifyImage env cat lang src st item (cleanText item.Title) imagen =
      (if qualificationOk env imagen = true then
        (if env.createOk (admittedRow cat lang src item imagen) = true then
          ({ st with
              noticias := st.noticias ++ [admittedRow cat lang src item imagen],
              linksVistos := item.Link :: st.linksVistos,
              titulosVistos := cleanText item.Title :: st.titulosVistos,
              sourceCounts := bumpCount st.sourceCounts src.SourceName },
            ItemOutcome.admitted)
        else (st, ItemOutcome.storeFailed))
      else
        ({ st with descartadas := st.descartadas + 1 },
          ItemOutcome.discarded
            (if goContains imagen "/images/fallback/" = true then
              DiscardReason.fallbackFileMissing
            else
              match env.validateImage imagen with
              | Except.error _ => DiscardReason.imageError
              | _ => DiscardReason.imageInvalid))) := by
  unfold qualifyImage qualificationOk admittedRow storeItem
  by_cases h9 : goContains imagen "/images/fallback/" = true
  · by_cases hfe : env.fallbackExists imagen = true
    · by_cases hc : env.createOk
          { Title := cleanText item.Title, Link := item.Link, Image := imagen,
            PubDate := item.PubDate, LangCode := lang, CategoryCode := cat,
            SourceID := src.ID } = true
      · simp [h9, hfe, hc]
      · simp [h9, hfe, hc]
    · simp [h9, hfe]
  · rcases hv : env.validateImage imagen with e | b
    · simp [h9, hv]
    · cases b
      · simp [h9, hv]
      · by_cases hc : env.createOk
            { Title := cleanText item.Title, Link := item.Link, Image := imagen,
              PubDate := item.PubDate, LangCode := lang, CategoryCode := cat,
              SourceID := src.ID } = true
        · simp [h9, hv, hc]
        · simp [h9, hv, hc]

/-- Normal form of `processItem`: the seven checks in source order, the first
failure discarding with its reason, then the store attempt. -/
theorem processItem_eq (cfg : Config) (env : PipelineEnv) (cat lang : String)
    (maxDays : Int) (src : NewsSource) (st : GroupState) (item : NewsItem) :
    processItem cfg env cat lang maxDays src st item =
      (if checkBlacklistFails item = true then
        ({ st with descartadas := st.descartadas + 1 },
          ItemOutcome.discarded DiscardReason.blacklist)
      else if checkLengthFails cfg item = true then
        ({ st with descartadas := st.descartadas + 1 },
          ItemOutcome.discarded DiscardReason.badLength)
      else if checkDupLinkFails st item = true then
        ({ st with descartadas := st.descartadas + 1 },
          ItemOutcome.discarded DiscardReason.dupLink)
      else if checkDupTitleFails st item = true then
        ({ st with descartadas := st.descartadas + 1 },
          ItemOutcome.discarded DiscardReason.dupTitle)
      else if checkAgeFails env maxDays item = true then
        ({ st with descartadas := st.descartadas + 1 },
          ItemOutcome.discarded DiscardReason.tooOld)
      else
        match resolvedImage env cat lang src item with
        | none =>
          ({ st with descartadas := st.descartadas + 1 },
            ItemOutcome.discarded
              (if goContains (getString src.Filter) "no_image" = true then
                DiscardReason.noImageNoFallback
              else DiscardReason.imageMissing))
        | some im =>
          if qualificationOk env im = true then
            (if env.createOk (admittedRow cat lang src item im) = true then
              ({ st with
                  noticias := st.noticias ++ [admittedRow cat lang src item im],
                  linksVistos := item.Link :: st.linksVistos,
                  titulosVistos := cleanText item.Title :: st.titulosVistos,
                  sourceCounts := bumpCount st.sourceCounts src.SourceName },
                ItemOutcome.admitted)
            else (st, ItemOutcome.storeFailed))
          else
            ({ st with descartadas := st.descartadas + 1 },
              ItemOutcome.discarded
                (if goContains im "/images/fallback/" = true then
                  DiscardReason.fallbackFileMissing
                else
                  match env.validateImage im with
                  | Except.error _ => DiscardReason.imageError
                  | _ => DiscardReason.imageInvalid))) := by
  by_cases h1 : checkBlacklistFails item = true
  · have h1b : isBlacklisted (cleanText item.Title) = true := by
      simpa [checkBlacklistFails] using h1
    simp [processItem, h1, h1b]
  · have h1b : isBlacklisted (cleanText item.Title) = false := by
      simpa [checkBlacklistFails] using h1
    by_cases h2 : checkLengthFails cfg item = true
    · have h2b : (((cleanText item.Title).utf8ByteSize : Int) < cfg.Filters.MinTitle ∨
          cfg.Filters.MaxTitle < ((cleanText item.Title).utf8ByteSize : Int)) := by
        simpa [checkLengthFails] using h2
      simp [processItem, h1, h1b, h2, h2b]
    · have h2b : ¬ (((cleanText item.Title).utf8ByteSize : Int) < cfg.Filters.MinTitle ∨
          cfg.Filters.MaxTitle < ((cleanText item.Title).utf8ByteSize : Int)) := by
        simpa [checkLengthFails] using h2
      by_cases h3 : checkDupLinkFails st item = true
      · have h3m : item.Link ∈ st.linksVistos := by
          have := h3
          simp only [checkDupLinkFails] at this
          simpa using this
        simp [processItem, h1, h1b, h2, h2b, h3, h3m]
      · have h3m : ¬ item.Link ∈ st.linksVistos := by
          have := h3
          simp only [checkDupLinkFails] at this
          simpa using this
        by_cases h4 : checkDupTitleFails st item = true
        · have h4m : cleanText item.Title ∈ st.titulosVistos := by
            have := h4
            simp only [checkDupTitleFails] at this
            simpa using this
          simp [processItem, h1, h1b, h2, h2b, h3, h3m, h4, h4m]
        · have h4m : ¬ cleanText item.Title ∈ st.titulosVistos := by
            have := h4
            simp only [checkDupTitleFails] at this
            simpa using this
          by_cases h5 : checkAgeFails env maxDays item = true
          · have h5b : maxDays * 86400 < env.now - item.PubDate := by
              simpa [checkAgeFails] using h5
            simp [processItem, h1, h1b, h2, h2b, h3, h3m, h4, h4m, h5, h5b]
          · have h5b : ¬ maxDays * 86400 < env.now - item.PubDate := by
              simpa [checkAgeFails] using h5
            by_cases h6 : item.Image = ""
            · by_cases h7 : goContains (getString src.Filter) "no_image" = true
              · by_cases h8 : env.fallbackImage cat lang = ""
                · have hri : resolvedImage env cat lang src item = none := by
                    simp [resolvedImage, h6, h7, h8]
                  simp [processItem, h1, h1b, h2, h2b, h3, h3m, h4, h4m, h5, h5b,
                    h6, h7, h8, hri]
                · have hri : resolvedImage env cat lang src item =
                      some (env.fallbackImage cat lang) := by
                    simp [resolvedImage, h6, h7, h8]
                  have hq := qualifyImage_eq env cat lang src st item
                    (env.fallbackImage cat lang)
                  simp [processItem, h1, h1b, h2, h2b, h3, h3m, h4, h4m, h5, h5b,
                    h6, h7, h8, hri, hq]
              · have hri : resolvedImage env cat lang src item = none := by
                  simp [resolvedImage, h6, h7]
                simp [processItem, h1, h1b, h2, h2b, h3, h3m, h4, h4m, h5, h5b,
                  h6, h7, hri]
            · have hri : resolvedImage env cat lang src item = some item.Image := by
                simp [resolvedImage, h6]
              have hq := qualifyImage_eq env cat lang src st item item.Image
              simp [processItem, h1, h1b, h2, h2b, h3, h3m, h4, h4m, h5, h5b,
                h6, hri, hq]

/-- Claim C1, counterexample: a candidate that passes all seven admission
checks is nevertheless neither persisted nor counted when the storage create
fails, so "persisted and counted if and only if it passes all seven checks"
does not hold as stated. -/
theorem claim_c1_counterexample_store_failure :
    passesAllChecks cfg0 envFailStore "technology" "es" 5 src0 {} item0 = true ∧
    (processItem cfg0 envFailStore "technology" "es" 5 src0 {} item0).2 ≠
      ItemOutcome.admitted ∧
    (processItem cfg0 envFailStore "technology" "es" 5 src0 {} item0).1 =
      ({} : GroupState) := by
  refine ⟨?_, ?_, ?_⟩ <;> decide

/-- Claim C1, amended: the seven admission checks are evaluated in exactly
the stated order, the first failing check discards the candidate with its
reason, and a candidate is persisted and counted if and only if it passes
all seven checks and the storage create succeeds. -/
theorem claim_c1_amended_admission_order (cfg : Config) (env : PipelineEnv)
    (cat lang : String) (maxDays : Int) (src : NewsSource) (st : GroupState)
    (item : NewsItem) :
    ((processItem cfg env cat lang maxDays src st item).2 =
        ItemOutcome.discarded DiscardReason.blacklist ↔
      checkBlacklistFails item = true) ∧
    ((processItem cfg env cat lang maxDays src st item).2 =
        ItemOutcome.discarded DiscardReason.badLength ↔
      checkBlacklistFails item = false ∧ checkLengthFails cfg item = true) ∧
    ((processItem cfg env cat lang maxDays src st item).2 =
        ItemOutcome.discarded DiscardReason.dupLink ↔
      checkBlacklistFails item = false ∧ checkLengthFails cfg item = false ∧
      checkDupLinkFails st item = true) ∧
    ((processItem cfg env cat lang maxDays src st item).2 =
        ItemOutcome.discarded DiscardReason.dupTitle ↔
      checkBlacklistFails item = false ∧ checkLengthFails cfg item = false ∧
      checkDupLinkFails st item = false ∧ checkDupTitleFails st item = true) ∧
    ((processItem cfg env cat lang maxDays src st item).2 =
        ItemOutcome.discarded DiscardReason.tooOld ↔
      checkBlacklistFails item = false ∧ checkLengthFails cfg item = false ∧
      checkDupLinkFails st item = false ∧ checkDupTitleFails st item = false ∧
      checkAgeFails env maxDays item = true) ∧
    (((processItem cfg env cat lang maxDays src st item).2 =
        ItemOutcome.discarded DiscardReason.noImageNoFallback ∨
      (processItem cfg env cat lang maxDays src st item).2 =
        ItemOutcome.discarded DiscardReason.imageMissing) ↔
      checkBlacklistFails item = false ∧ checkLengthFails cfg item = false ∧
      checkDupLinkFails st item = false ∧ checkDupTitleFails st item = false ∧
      checkAgeFails env maxDays item = false ∧
      checkImageFails env cat lang src item = true) ∧
    (((processItem cfg env cat lang maxDays src st item).2 =
        ItemOutcome.discarded DiscardReason.imageError ∨
      (processItem cfg env cat lang maxDays src st item).2 =
        ItemOutcome.discarded DiscardReason.imageInvalid ∨
      (processItem cfg env cat lang maxDays src st item).2 =
        ItemOutcome.discarded DiscardReason.fallbackFileMissing) ↔
      checkBlacklistFails item = false ∧ checkLengthFails cfg item = false ∧
      checkDupLinkFails st item = false ∧ checkDupTitleFails st item = false ∧
      checkAgeFails env maxDays item = false ∧
      checkImageFails env cat lang src item = false ∧
      checkQualificationFails env cat lang src item = true) ∧
    ((processItem cfg env cat lang maxDays src st item).2 = ItemOutcome.admitted ↔
      passesAllChecks cfg env cat lang maxDays src st item = true ∧
      env.createOk (admittedRow cat lang src item
        ((resolvedImage env cat lang src item).getD "")) = true) ∧
    ((processItem cfg env cat lang maxDays src st item).2 = ItemOutcome.storeFailed ↔
      passesAllChecks cfg env cat lang maxDays src st item = true ∧
      env.createOk (admittedRow cat lang src item
        ((resolvedImage env cat lang src item).getD "")) = false) ∧
    ((processItem cfg env cat lang maxDays src st item).1.noticias =
      if (processItem cfg env cat lang maxDays src st item).2 = ItemOutcome.admitted then
        st.noticias ++ [admittedRow cat lang src item
          ((resolvedImage env cat lang src item).getD "")]
      else st.noticias) := by
  rw [processItem_eq]
  by_cases h1 : checkBlacklistFails item = true
  · simp [h1, passesAllChecks]
  · rw [Bool.not_eq_true] at h1
    by_cases h2 : checkLengthFails cfg item = true
    · simp [h1, h2, passesAllChecks]
    · rw [Bool.not_eq_true] at h2
      by_cases h3 : checkDupLinkFails st item = true
      · simp [h1, h2, h3, passesAllChecks]
      · rw [Bool.not_eq_true] at h3
        by_cases h4 : checkDupTitleFails st item = true
        · simp [h1, h2, h3, h4, passesAllChecks]
        · rw [Bool.not_eq_true] at h4
          by_cases h5 : checkAgeFails env maxDays item = true
          · simp [h1, h2, h3, h4, h5, passesAllChecks]
          · rw [Bool.not_eq_true] at h5
            rcases hri : resolvedImage env cat lang src item with _ | im
            · have hif : checkImageFails env cat lang src item = true := by
                simp [checkImageFails, hri]
              by_cases h7 : goContains (getString src.Filter) "no_image" = true
              · simp [h1, h2, h3, h4, h5, h7, hri, hif, passesAllChecks,
                  checkQualificationFails]
              · simp [h1, h2, h3, h4, h5, h7, hri, hif, passesAllChecks,
                  checkQualificationFails]
            · have hif : checkImageFails env cat lang src item = false := by
                simp [checkImageFails, hri]
              by_cases hq : qualificationOk env im = true
              · have hqf : checkQualificationFails env cat lang src item = false := by
                  simp [checkQualificationFails, hri, hq]
                by_cases hc : env.createOk (admittedRow cat lang src item im) = true
                · simp [h1, h2, h3, h4, h5, hri, hif, hq, hqf, hc, passesAllChecks]
                · rw [Bool.not_eq_true] at hc
                  simp [h1, h2, h3, h4, h5, hri, hif, hq, hqf, hc, passesAllChecks]
              · rw [Bool.not_eq_true] at hq
                have hqf : checkQualificationFails env cat lang src item = true := by
                  simp [checkQualificationFails, hri, hq]
                by_cases h9 : goContains im "/images/fallback/" = true
                · simp [h1, h2, h3, h4, h5, hri, hif, hq, hqf, h9, passesAllChecks]
                · rcases hv : env.validateImage im with e | b
                  · simp [h1, h2, h3, h4, h5, hri, hif, hq, hqf, h9, hv,
                      passesAllChecks]
                  · cases b
                    · simp [h1, h2, h3, h4, h5, hri, hif, hq, hqf, h9, hv,
                        passesAllChecks]
                    · exfalso
                      rw [qualificationOk, if_pos (by simp [h9]), hv] at hq
                      simp at hq

/-- What one candidate does to the group state: either the admitted-items
list and both seen-sets are untouched, or (only after both duplicate checks
passed) the new row is appended and its link and cleaned title are recorded. -/
theorem processItem_fst_cases (cfg : Config) (env : PipelineEnv) (cat lang : String)
    (maxDays : Int) (src : NewsSource) (st : GroupState) (item : NewsItem) :
    ((processItem cfg env cat lang maxDays src st item).1.noticias = st.noticias ∧
      (processItem cfg env cat lang maxDays src st item).1.linksVistos = st.linksVistos ∧
      (processItem cfg env cat lang maxDays src st item).1.titulosVistos = st.titulosVistos) ∨
    (checkDupLinkFails st item = false ∧ checkDupTitleFails st item = false ∧
      ∃ im,
        (processItem cfg env cat lang maxDays src st item).1.noticias =
          st.noticias ++ [admittedRow cat lang src item im] ∧
        (processItem cfg env cat lang maxDays src st item).1.linksVistos =
          item.Link :: st.linksVistos ∧
        (processItem cfg env cat lang maxDays src st item).1.titulosVistos =
          cleanText item.Title :: st.titulosVistos) := by
  rw [processItem_eq]
  by_cases h1 : checkBlacklistFails item = true
  · left; simp [h1]
  · rw [Bool.not_eq_true] at h1
    by_cases h2 : checkLengthFails cfg item = true
    · left; simp [h1, h2]
    · rw [Bool.not_eq_true] at h2
      by_cases h3 : checkDupLinkFails st item = true
      · left; simp [h1, h2, h3]
      · rw [Bool.not_eq_true] at h3
        by_cases h4 : checkDupTitleFails st item = true
        · left; simp [h1, h2, h3, h4]
        · rw [Bool.not_eq_true] at h4
          by_cases h5 : checkAgeFails env maxDays item = true
          · left; simp [h1, h2, h3, h4, h5]
          · rw [Bool.not_eq_true] at h5
            rcases hri : resolvedImage env cat lang src item with _ | im
            · left; simp [h1, h2, h3, h4, h5, hri]
            · by_cases hq : qualificationOk env im = true
              · by_cases hc : env.createOk (admittedRow cat lang src item im) = true
                · right
                  exact ⟨h3, h4, im, by simp [h1, h2, h3, h4, h5, hri, hq, hc],
                    by simp [h1, h2, h3, h4, h5, hri, hq, hc],
                    by simp [h1, h2, h3, h4, h5, hri, hq, hc]⟩
                · rw [Bool.not_eq_true] at hc
                  left; simp [h1, h2, h3, h4, h5, hri, hq, hc]
              · rw [Bool.not_eq_true] at hq
                left; simp [h1, h2, h3, h4, h5, hri, hq]

/-- The empty group state satisfies the invariant. -/
theorem groupInv_empty : GroupInv ({} : GroupState) := by
  refine ⟨?_, ?_, ?_, ?_⟩ <;> simp [GroupInv]

/-- One admission step preserves the group invariant. -/
theorem groupInv_processItem (cfg : Config) (env : PipelineEnv) (cat lang : String)
    (maxDays : Int) (src : NewsSource) (st : GroupState) (item : NewsItem)
    (h : GroupInv st) :
    GroupInv (processItem cfg env cat lang maxDays src st item).1 := by
  obtain ⟨ha, hb, hc, hd⟩ := h
  rcases processItem_fst_cases cfg env cat lang maxDays src st item with
    ⟨e1, e2, e3⟩ | ⟨h3, h4, im, e1, e2, e3⟩
  · refine ⟨?_, ?_, ?_, ?_⟩
    · rw [e1]; exact ha
    · rw [e1]; exact hb
    · rw [e1, e2]; exact hc
    · rw [e1, e3]; exact hd
  · have hlnk : item.Link ∉ st.linksVistos := by
      simpa [checkDupLinkFails] using h3
    have httl : cleanText item.Title ∉ st.titulosVistos := by
      simpa [checkDupTitleFails] using h4
    have hl2 : item.Link ∉ st.noticias.map NewsItem.Link := by
      intro hmem
      obtain ⟨n, hn, he⟩ := List.mem_map.mp hmem
      exact hlnk (he ▸ hc n hn)
    have ht2 : cleanText item.Title ∉ st.noticias.map NewsItem.Title := by
      intro hmem
      obtain ⟨n, hn, he⟩ := List.mem_map.mp hmem
      exact httl (he ▸ hd n hn)
    have hmapl : (st.noticias ++ [admittedRow cat lang src item im]).map NewsItem.Link =
        st.noticias.map NewsItem.Link ++ [item.Link] := by
      simp [admittedRow]
    have hmapt : (st.noticias ++ [admittedRow cat lang src item im]).map NewsItem.Title =
        st.noticias.map NewsItem.Title ++ [cleanText item.Title] := by
      simp [admittedRow]
    refine ⟨?_, ?_, ?_, ?_⟩
    · rw [e1, hmapl]
      exact ((List.perm_append_singleton _ _).nodup_iff).mpr
        (List.nodup_cons.mpr ⟨hl2, ha⟩)
    · rw [e1, hmapt]
      exact ((List.perm_append_singleton _ _).nodup_iff).mpr
        (List.nodup_cons.mpr ⟨ht2, hb⟩)
    · rw [e1, e2]
      intro n hn
      rcases List.mem_append.mp hn with hmem | hmem
      · exact List.mem_cons_of_mem _ (hc n hmem)
      · rw [List.mem_singleton.mp hmem]
        simp [admittedRow]
    · rw [e1, e3]
      intro n hn
      rcases List.mem_append.mp hn with hmem | hmem
      · exact List.mem_cons_of_mem _ (hd n hmem)
      · rw [List.mem_singleton.mp hmem]
        simp [admittedRow]

/-- The per-source item loop preserves the group invariant. -/
theorem groupInv_runItems (cfg : Config) (env : PipelineEnv) (cat lang : String)
    (maxDays tope maxPerSource : Int) (src : NewsSource) (items : List NewsItem) :
    ∀ st, GroupInv st →
      GroupInv (runItems cfg env cat lang maxDays tope maxPerSource src st items) := by
  induction items with
  | nil => intro st h; exact h
  | cons item rest ih =>
    intro st h
    have heq : runItems cfg env cat lang maxDays tope maxPerSource src st (item :: rest) =
        if tope ≤ (st.noticias.length : Int) then st
        else if maxPerSource ≤ (getCount st.sourceCounts src.SourceName : Int) then st
        else runItems cfg env cat lang maxDays tope maxPerSource src
          (processItem cfg env cat lang maxDays src st item).1 rest := rfl
    rw [heq]
    split_ifs with hb1 hb2
    · exact h
    · exact h
    · exact ih _ (groupInv_processItem cfg env cat lang maxDays src st item h)

/-- The group's source loop preserves the group invariant. -/
theorem groupInv_runSources (cfg : Config) (env : PipelineEnv) (cat lang : String)
    (maxDays tope : Int) (sources : List NewsSource) :
    ∀ st, GroupInv st →
      GroupInv (runSources cfg env cat lang maxDays tope st sources) := by
  induction sources with
  | nil => intro st h; exact h
  | cons src rest ih =>
    intro st h
    have heq : runSources cfg env cat lang maxDays tope st (src :: rest) =
        match env.fetch src with
        | Except.error _ => runSources cfg env cat lang maxDays tope st rest
        | Except.ok feedItems =>
          let st2 := runItems cfg env cat lang maxDays tope
            (cfg.GetMaxPerSource lang cat) src st feedItems
          if tope ≤ (st2.noticias.length : Int) then st2
          else runSources cfg env cat lang maxDays tope st2 rest := rfl
    rw [heq]
    cases hf : env.fetch src with
    | error e => exact ih st h
    | ok feedItems =>
      have h2 := groupInv_runItems cfg env cat lang maxDays tope
        (cfg.GetMaxPerSource lang cat) src feedItems st h
      dsimp only
      split_ifs with hb
      · exact h2
      · exact ih _ h2

/-- Claim C2: within one group's run no two admitted items share a link and
no two share a cleaned title — the invariant holds of the initial state, is
preserved by every admission step, and therefore holds after any run of the
group's source loop. -/
theorem claim_c2_group_invariant :
    GroupInv ({} : GroupState) ∧
    (∀ (cfg : Config) (env : PipelineEnv) (cat lang : String) (maxDays : Int)
      (src : NewsSource) (st : GroupState) (item : NewsItem), GroupInv st →
      GroupInv (processItem cfg env cat lang maxDays src st item).1) ∧
    (∀ (cfg : Config) (env : PipelineEnv) (cat lang : String) (maxDays tope : Int)
      (sources : List NewsSource),
      GroupInv (runSources cfg env cat lang maxDays tope {} sources)) :=
  ⟨groupInv_empty,
   fun cfg env cat lang maxDays src st item h =>
     groupInv_processItem cfg env cat lang maxDays src st item h,
   fun cfg env cat lang maxDays tope sources =>
     groupInv_runSources cfg env cat lang maxDays tope sources {} groupInv_empty⟩

/-- Witness for claim C2 at a concrete state and candidate. -/
theorem claim_c2_group_invariant_witness :
    GroupInv ({} : GroupState) ∧
    GroupInv (processItem cfg0 envBase "technology" "es" 5 src0 {} item0).1 :=
  ⟨groupInv_empty,
   claim_c2_group_invariant.2.1 cfg0 envBase "technology" "es" 5 src0 {} item0
     groupInv_empty⟩

/-- The admission step never reads the purge result. -/
theorem processItem_purge_indep (cfg : Config) (env : PipelineEnv) (p : Option String)
    (cat lang : String) (maxDays : Int) (src : NewsSource) (st : GroupState)
    (item : NewsItem) :
    processItem cfg { env with purgeErr := p } cat lang maxDays src st item =
      processItem cfg env cat lang maxDays src st item := by
  cases env
  rfl

/-- The item loop never reads the purge result. -/
theorem runItems_purge_indep (cfg : Config) (env : PipelineEnv) (p : Option String)
    (cat lang : String) (maxDays tope maxPerSource : Int) (src : NewsSource)
    (items : List NewsItem) :
    ∀ st, runItems cfg { env with purgeErr := p } cat lang maxDays tope maxPerSource
        src st items =
      runItems cfg env cat lang maxDays tope maxPerSource src st items := by
  induction items with
  | nil => intro st; rfl
  | cons item rest ih =>
    intro st
    show (if tope ≤ (st.noticias.length : Int) then st
      else if maxPerSource ≤ (getCount st.sourceCounts src.SourceName : Int) then st
      else runItems cfg { env with purgeErr := p } cat lang maxDays tope maxPerSource src
        (processItem cfg { env with purgeErr := p } cat lang maxDays src st item).1 rest) = _
    rw [processItem_purge_indep, ih]
    rfl

/-- The source loop never reads the purge result. -/
theorem runSources_purge_indep (cfg : Config) (env : PipelineEnv) (p : Option String)
    (cat lang : String) (maxDays tope : Int) (sources : List NewsSource) :
    ∀ st, runSources cfg { env with purgeErr := p } cat lang maxDays tope st sources =
      runSources cfg env cat lang maxDays tope st sources := by
  induction sources with
  | nil => intro st; rfl
  | cons src rest ih =>
    intro st
    have hL : runSources cfg { env with purgeErr := p } cat lang maxDays tope st
        (src :: rest) =
        (match env.fetch src with
        | Except.error _ =>
          runSources cfg { env with purgeErr := p } cat lang maxDays tope st rest
        | Except.ok feedItems =>
          let st2 := runItems cfg { env with purgeErr := p } cat lang maxDays tope
            (cfg.GetMaxPerSource lang cat) src st feedItems
          if tope ≤ (st2.noticias.length : Int) then st2
          else runSources cfg { env with purgeErr := p } cat lang maxDays tope st2 rest) :=
      rfl
    have hR : runSources cfg env cat lang maxDays tope st (src :: rest) =
        (match env.fetch src with
        | Except.error _ => runSources cfg env cat lang maxDays tope st rest
        | Except.ok feedItems =>
          let st2 := runItems cfg env cat lang maxDays tope
            (cfg.GetMaxPerSource lang cat) src st feedItems
          if tope ≤ (st2.noticias.length : Int) then st2
          else runSources cfg env cat lang maxDays tope st2 rest) := rfl
    rw [hL, hR]
    cases hf : env.fetch src with
    | error e => exact ih st
    | ok feedItems =>
      dsimp only
      rw [runItems_purge_indep, ih]

/-- Claim C9: a full run returns an error exactly when listing the active
sources fails; the purge result has no effect on the run's outcome; a
per-source fetch error merely skips that source; and the item loop always
continues past a processed candidate (whatever `processItem` did, storage
failure included) as long as neither cap has been reached. -/
theorem claim_c9_error_recovery :
    (∀ (cfg : Config) (env : PipelineEnv),
      (∃ e, Execute cfg env = Except.error e) ↔
      (∃ e2, env.listActive = Except.error e2)) ∧
    (∀ (cfg : Config) (env : PipelineEnv) (p : Option String),
      Execute cfg { env with purgeErr := p } = Execute cfg env) ∧
    (∀ (cfg : Config) (env : PipelineEnv) (cat lang : String) (maxDays tope : Int)
      (st : GroupState) (src : NewsSource) (rest : List NewsSource) (e : String),
      env.fetch src = Except.error e →
      runSources cfg env cat lang maxDays tope st (src :: rest) =
        runSources cfg env cat lang maxDays tope st rest) ∧
    (∀ (cfg : Config) (env : PipelineEnv) (cat lang : String)
      (maxDays tope maxPerSource : Int) (src : NewsSource) (st : GroupState)
      (item : NewsItem) (rest : List NewsItem),
      ¬ tope ≤ (st.noticias.length : Int) →
      ¬ maxPerSource ≤ (getCount st.sourceCounts src.SourceName : Int) →
      runItems cfg env cat lang maxDays tope maxPerSource src st (item :: rest) =
        runItems cfg env cat lang maxDays tope maxPerSource src
          (processItem cfg env cat lang maxDays src st item).1 rest) := by
  refine ⟨?_, ?_, ?_, ?_⟩
  · intro cfg env
    unfold Execute
    cases hla : env.listActive with
    | error e => simp [hla]
    | ok sources => simp [hla]
  · intro cfg env p
    obtain ⟨a, la, f, v, fb, fe, co, pe⟩ := env
    dsimp only
    unfold Execute
    dsimp only
    cases la with
    | error e => rfl
    | ok sources =>
      dsimp only
      congr 1
      apply List.map_congr_left
      intro g _
      rcases goSplitN2 g.1 "_" with _ | ⟨x, _ | ⟨y, _ | ⟨z, t⟩⟩⟩
      · rfl
      · rfl
      · dsimp only
        exact congrArg (fun w => (g.1, w))
          (runSources_purge_indep cfg ⟨a, Except.ok sources, f, v, fb, fe, co, pe⟩
            p x y (groupMaxDays cfg y x g.2.length) (getNewsCountUC cfg y x) g.2 {})
      · rfl
  · intro cfg env cat lang maxDays tope st src rest e hf
    show (match env.fetch src with
      | Except.error _ => runSources cfg env cat lang maxDays tope st rest
      | Except.ok feedItems =>
        let st2 := runItems cfg env cat lang maxDays tope
          (cfg.GetMaxPerSource lang cat) src st feedItems
        if tope ≤ (st2.noticias.length : Int) then st2
        else runSources cfg env cat lang maxDays tope st2 rest) = _
    rw [hf]
  · intro cfg env cat lang maxDays tope maxPerSource src st item rest hb1 hb2
    show (if tope ≤ (st.noticias.length : Int) then st
      else if maxPerSource ≤ (getCount st.sourceCounts src.SourceName : Int) then st
      else runItems cfg env cat lang maxDays tope maxPerSource src
        (processItem cfg env cat lang maxDays src st item).1 rest) = _
    rw [if_neg hb1, if_neg hb2]

/-- Witness for claim C9: a failing fetch on a concrete source is skipped,
leaving the run to continue with the remaining sources. -/
theorem claim_c9_error_recovery_witness :
    (envFetchErr.fetch src0 = Except.error "net" ∧
      runSources cfg0 envFetchErr "technology" "es" 5 10 ({} : GroupState) [src0] =
        runSources cfg0 envFetchErr "technology" "es" 5 10 ({} : GroupState) []) ∧
    (¬ (10 : Int) ≤ ((({} : GroupState)).noticias.length : Int) ∧
      ¬ (7 : Int) ≤ (getCount ({} : GroupState).sourceCounts src0.SourceName : Int) ∧
      runItems cfg0 envBase "technology" "es" 5 10 7 src0 ({} : GroupState) [item0] =
        runItems cfg0 envBase "technology" "es" 5 10 7 src0
          (processItem cfg0 envBase "technology" "es" 5 src0 {} item0).1 []) :=
  ⟨⟨rfl,
    claim_c9_error_recovery.2.2.1 cfg0 envFetchErr "technology" "es" 5 10 {} src0 []
      "net" rfl⟩,
   ⟨by decide, by decide,
    claim_c9_error_recovery.2.2.2 cfg0 envBase "technology" "es" 5 10 7 src0 {}
      item0 [] (by decide) (by decide)⟩⟩

/-- Claim C10: when the storage create fails for a candidate that passed all
seven checks, the group state is completely unchanged — nothing is appended,
no link or title is marked seen, no counter moves — and the very same
candidate (same link, same cleaned title) processed again from that state
with a working store is admitted. -/
theorem claim_c10_store_failure_state_unchanged (cfg : Config) (env : PipelineEnv)
    (cat lang : String) (maxDays : Int) (src : NewsSource) (st : GroupState)
    (item : NewsItem)
    (hpass : passesAllChecks cfg env cat lang maxDays src st item = true)
    (hfail : env.createOk (admittedRow cat lang src item
      ((resolvedImage env cat lang src item).getD "")) = false) :
    processItem cfg env cat lang maxDays src st item = (st, ItemOutcome.storeFailed) ∧
    (processItem cfg { env with createOk := fun _ => true } cat lang maxDays src st
      item).2 = ItemOutcome.admitted := by
  obtain ⟨a, la, f, v, fb, fe, co, pe⟩ := env
  simp only [passesAllChecks, Bool.and_eq_true, Bool.not_eq_true'] at hpass
  obtain ⟨⟨⟨⟨⟨⟨hb1, hb2⟩, hb3⟩, hb4⟩, hb5⟩, hb6⟩, hb7⟩ := hpass
  rcases hri : resolvedImage ⟨a, la, f, v, fb, fe, co, pe⟩ cat lang src item with _ | im
  · rw [checkImageFails, hri] at hb6
    simp at hb6
  · rw [hri] at hfail
    simp only [Option.getD_some] at hfail
    have hq : qualificationOk ⟨a, la, f, v, fb, fe, co, pe⟩ im = true := by
      have := hb7
      rw [checkQualificationFails, hri] at this
      simpa using this
    constructor
    · rw [processItem_eq]
      simp [hb1, hb2, hb3, hb4, hb5, hri, hq, hfail]
    · have hri2 : resolvedImage ⟨a, la, f, v, fb, fe, fun _ => true, pe⟩ cat lang
          src item = some im := hri
      have hq2 : qualificationOk ⟨a, la, f, v, fb, fe, fun _ => true, pe⟩ im = true := hq
      have hb5x : checkAgeFails ⟨a, la, f, v, fb, fe, fun _ => true, pe⟩ maxDays
          item = false := hb5
      rw [processItem_eq]
      simp [hb1, hb2, hb3, hb4, hb5x, hri2, hq2]

/-- Witness for claim C10 at a concrete group state and candidate. -/
theorem claim_c10_store_failure_witness :
    passesAllChecks cfg0 envFailStore "technology" "es" 5 src0 {} item0 = true ∧
    envFailStore.createOk (admittedRow "technology" "es" src0 item0
      ((resolvedImage envFailStore "technology" "es" src0 item0).getD "")) = false ∧
    processItem cfg0 envFailStore "technology" "es" 5 src0 {} item0 =
      ({} , ItemOutcome.storeFailed) ∧
    (processItem cfg0 { envFailStore with createOk := fun _ => true } "technology"
      "es" 5 src0 {} item0).2 = ItemOutcome.admitted :=
  ⟨by decide, rfl,
   (claim_c10_store_failure_state_unchanged cfg0 envFailStore "technology" "es" 5
     src0 {} item0 (by decide) rfl).1,
   (claim_c10_store_failure_state_unchanged cfg0 envFailStore "technology" "es" 5
     src0 {} item0 (by decide) rfl).2⟩

end DailyNews
